import Mathlib

/-!
# Verification of the MXP transport packet engine

Shallow embedding of the `mxp-protocol` transport core (Rust) in Lean 4,
together with proofs and refutations of the specification's claims.

Bytes are modelled as `Nat` (values `< 256` where it matters), byte buffers
as `List Nat`, machine integers as `Nat` with explicit `% 2^w` or saturation
where the source wraps or saturates, fallible operations as `Except`.
Mutating Rust methods become state-passing functions.
-/

namespace Mxp

/-! ## Little-endian byte encoding helpers (u64::to_le_bytes / from_le_bytes) -/

/-- The `toLE n x` is the `n`-byte little-endian encoding of `x`
(`x.to_le_bytes()` in the source, truncated to `n` bytes). -/
def toLE : Nat → Nat → List Nat
  | 0, _ => []
  | n + 1, x => (x % 256) :: toLE n (x / 256)

/-- The `fromLE bs` reassembles a little-endian byte list into a natural number
(`uN::from_le_bytes` in the source). -/
def fromLE : List Nat → Nat
  | [] => 0
  | b :: bs => b + 256 * fromLE bs

@[simp] theorem toLE_length (n x : Nat) : (toLE n x).length = n := by
  induction n generalizing x with
  | zero => rfl
  | succ n ih => simp [toLE, ih]

theorem fromLE_toLE {n x : Nat} (h : x < 256 ^ n) : fromLE (toLE n x) = x := by
  induction n generalizing x with
  | zero => simpa [toLE, fromLE] using (Nat.lt_one_iff.mp (by simpa using h)).symm
  | succ n ih =>
      have hdiv : x / 256 < 256 ^ n := by
        rw [Nat.div_lt_iff_lt_mul (by norm_num)]
        calc x < 256 ^ (n + 1) := h
        _ = 256 ^ n * 256 := by ring
      simp [toLE, fromLE, ih hdiv]
      omega

theorem toLE_lt (n x : Nat) : ∀ b ∈ toLE n x, b < 256 := by
  induction n generalizing x with
  | zero => simp [toLE]
  | succ n ih =>
      intro b hb
      simp only [toLE, List.mem_cons] at hb
      rcases hb with h | h
      · omega
      · exact ih _ _ h

/-! ## Transport error taxonomy (src/src/transport/error.rs and friends)

Only the variants the claims touch are carried; payload fields follow the
source (`PayloadTooLarge { len, max }`, `BufferTooSmall { required, available }`,
`ReplayDetected { packet_number, highest_seen }`, packet-codec errors). -/

/-- Packet-codec errors (`PacketError` in src/src/transport/packet.rs). -/
inductive PacketError where
  | bufferTooSmall (expected actual : Nat)
  | payloadTooLarge (len max : Nat)
  | reservedBitsSet (bits : Nat)
  deriving DecidableEq, Repr

/-- Crypto errors (`CryptoError` in src/src/transport/crypto.rs). -/
inductive CryptoError where
  | invalidKeyLength
  | invalidNonceLength
  | invalidTagLength
  | authenticationFailed
  | keyDerivationFailed
  deriving DecidableEq, Repr

/-- Transport-level error union (the variants used by the packet cipher). -/
inductive TransportError where
  | payloadTooLarge (len max : Nat)
  | bufferTooSmall (required available : Nat)
  | replayDetected (packetNumber highestSeen : Nat)
  | packet (e : PacketError)
  | crypto (e : CryptoError)
  deriving DecidableEq, Repr

deriving instance DecidableEq for Except

/-! ## Packet header codec (src/src/transport/packet.rs)

The 32-byte fixed layout: `conn_id` (u64 LE at 0..8), `packet_number`
(u64 LE at 8..16), `flags` (u8 at 16), `reserved` (u8 at 17, must be 0),
`payload_len` (u16 LE at 18..20), `nonce` (12 bytes at 20..32). -/

/-- Size of an encoded packet header (`HEADER_SIZE`). -/
def HEADER_SIZE : Nat := 32

/-- Size of the AEAD tag (`AEAD_TAG_LEN`). -/
def AEAD_TAG_LEN : Nat := 16

/-- Size of the nonce (`AEAD_NONCE_LEN` / `NONCE_SIZE`). -/
def AEAD_NONCE_LEN : Nat := 12

/-- The `PacketHeader` (src/src/transport/packet.rs). `flags` is the raw bit
value of `PacketFlags`; `nonce` is the 12-byte list. -/
structure PacketHeader where
  connId : Nat
  packetNumber : Nat
  flags : Nat
  payloadLen : Nat
  reserved : Nat
  nonce : List Nat
  deriving DecidableEq, Repr

/-- The `PacketHeader::encode` (src/src/transport/packet.rs:129).  The source
writes into a caller buffer after a `len ≥ 32` check and zero-fill; every
call site in the cipher passes an exactly-32-byte slice, so the embedding
returns the 32 encoded bytes directly (`nonce` is written at 20..32, so the
result has length 32 when the nonce has length 12). -/
def PacketHeader.encode (h : PacketHeader) : List Nat :=
  toLE 8 h.connId ++ toLE 8 h.packetNumber ++ [h.flags % 256, h.reserved % 256]
    ++ toLE 2 h.payloadLen ++ h.nonce

/-- The `PacketHeader::decode` (src/src/transport/packet.rs:149). -/
def PacketHeader.decode (buf : List Nat) : Except PacketError PacketHeader :=
  if buf.length < HEADER_SIZE then
    .error (.bufferTooSmall HEADER_SIZE buf.length)
  else
    let flags := buf.getD 16 0
    let reserved := buf.getD 17 0
    if reserved ≠ 0 then
      .error (.reservedBitsSet reserved)
    else
      .ok {
        connId := fromLE (buf.take 8)
        packetNumber := fromLE ((buf.drop 8).take 8)
        flags := flags
        payloadLen := fromLE ((buf.drop 18).take 2)
        reserved := reserved
        nonce := (buf.drop 20).take 12
      }

@[simp] theorem PacketHeader.encode_length (h : PacketHeader)
    (hn : h.nonce.length = 12) : h.encode.length = 32 := by
  simp [PacketHeader.encode, hn]

/-! ## Placeholder AEAD (src/src/transport/crypto.rs)

`encrypt`/`decrypt` in the source are an XOR keystream placeholder: byte `i`
of the keystream is `key[i % 32] ^ nonce[i % 12]` (the key is a 32-byte
array); the tag is the first 16 keystream bytes, and `decrypt` ignores both
the AAD and the tag and never fails. -/

/-- Byte `i` of the placeholder keystream:
`key.as_bytes()[i % 32] ^ nonce.as_bytes()[i % AEAD_NONCE_LEN]`. -/
def keystreamByte (key nonce : List Nat) (i : Nat) : Nat :=
  key.getD (i % 32) 0 ^^^ nonce.getD (i % 12) 0

/-- The `encrypt` (src/src/transport/crypto.rs:367): XOR the plaintext with the
keystream; the tag is the first 16 keystream bytes.  The AAD parameter is
unused by the source (`_aad`). -/
def encrypt (key nonce plaintext : List Nat) (_aad : List Nat) :
    List Nat × List Nat :=
  ((List.range plaintext.length).map
      (fun i => plaintext.getD i 0 ^^^ keystreamByte key nonce i),
   (List.range 16).map (keystreamByte key nonce))

/-- The `decrypt` (src/src/transport/crypto.rs:385): the source re-applies the
XOR keystream (`encrypt` with empty AAD) and always returns `Ok`; the AAD
and tag parameters are ignored (`_aad`, `_tag`). -/
def decrypt (key nonce ciphertext : List Nat) (_aad _tag : List Nat) :
    Except CryptoError (List Nat) :=
  .ok (encrypt key nonce ciphertext []).1

@[simp] theorem encrypt_fst_length (key nonce p aad : List Nat) :
    (encrypt key nonce p aad).1.length = p.length := by
  simp [encrypt]

/-- Decrypting re-applies the XOR keystream, so `decrypt ∘ encrypt` is the
identity on the plaintext (for any key/nonce). -/
theorem decrypt_encrypt (key nonce p aad aad' tag' : List Nat) :
    decrypt key nonce (encrypt key nonce p aad).1 aad' tag' = .ok p := by
  unfold decrypt
  congr 1
  apply List.ext_getElem
  · simp [encrypt]
  · intro i h1 h2
    simp only [encrypt, List.getElem_map, List.getElem_range,
      List.length_map, List.length_range] at h1 ⊢
    rw [List.getD_eq_getElem _ _ (by simpa using h1), List.getElem_map,
      List.getElem_range, List.getD_eq_getElem _ _ h2]
    simp [Nat.xor_cancel_right]

/-! ## Header protection (src/src/transport/packet_crypto.rs, §4.2 of the spec) -/

/-- Sample length for header protection (`HEADER_PROTECTION_SAMPLE_LEN`). -/
def HEADER_PROTECTION_SAMPLE_LEN : Nat := 16

/-- The `build_header_sample` (src/src/transport/packet_crypto.rs:39): the first
16 bytes of the packet body, zero-padded when the body is shorter. -/
def buildHeaderSample (body : List Nat) : List Nat :=
  (body.take HEADER_PROTECTION_SAMPLE_LEN) ++
    List.replicate (HEADER_PROTECTION_SAMPLE_LEN - body.length) 0

/-- Modelled from the spec: `header_protection_mask` and
`HeaderProtectionKey` are exported by src/src/transport/mod.rs and used by
packet_crypto.rs, but their definition is not under src/ (the crypto.rs
present is the divergent placeholder layout without header protection).
Per §4.2 the mask function must be a deterministic function of the
protection key and the 16-byte sample, depending on the full sample.  §4.2
says the mask has 5 bytes, but `apply_header_mask` (which IS under src/)
reads `mask[0]` through `mask[8]`, so the mask array must hold at least 9
bytes; the model produces 9 deterministic bytes mixing key and sample. -/
def headerProtectionMask (hpKey sample : List Nat) : List Nat :=
  (List.range 9).map (fun i =>
    (hpKey.foldl (fun a b => a + b * (i + 1)) 0 +
      sample.foldl (fun a b => (a * 3 + b) % 65536) i) % 256)

@[simp] theorem headerProtectionMask_length (k s : List Nat) :
    (headerProtectionMask k s).length = 9 := by
  simp [headerProtectionMask]

/-- The per-index XOR pattern of `apply_header_mask`
(src/src/transport/packet_crypto.rs:46) expanded over the 32 header bytes:
`bytes[16] ^= mask[0]` and `bytes[8 + i] ^= mask[1 + i]` for `i` in `0..8`
(all eight packet-number bytes); every other byte is XORed with 0. -/
def maskExpansion (mask : List Nat) : List Nat :=
  List.replicate 8 0 ++ (List.range 8).map (fun i => mask.getD (1 + i) 0)
    ++ [mask.getD 0 0] ++ List.replicate 15 0

@[simp] theorem maskExpansion_length (mask : List Nat) :
    (maskExpansion mask).length = 32 := by
  simp [maskExpansion]

/-- The `apply_header_mask` (src/src/transport/packet_crypto.rs:46), expressed
as a pointwise XOR of the (32-byte) header slice with `maskExpansion`. -/
def applyHeaderMask (mask bytes : List Nat) : List Nat :=
  List.zipWith (· ^^^ ·) bytes (maskExpansion mask)

@[simp] theorem applyHeaderMask_length (mask bytes : List Nat)
    (h : bytes.length ≤ 32) : (applyHeaderMask mask bytes).length = bytes.length := by
  simp [applyHeaderMask, h]

theorem zipWith_xor_cancel : ∀ (bs es : List Nat), bs.length ≤ es.length →
    List.zipWith (· ^^^ ·) (List.zipWith (· ^^^ ·) bs es) es = bs := by
  intro bs
  induction bs with
  | nil => intro es _; simp
  | cons b bs ih =>
      intro es h
      cases es with
      | nil => simp at h
      | cons e es =>
          simp only [List.zipWith_cons_cons, Nat.xor_cancel_right]
          rw [ih es (by simpa using h)]

/-- Masking is an involution: applying `apply_header_mask` with the same
mask twice restores the original header bytes. -/
theorem applyHeaderMask_involution (mask bytes : List Nat)
    (h : bytes.length ≤ 32) :
    applyHeaderMask mask (applyHeaderMask mask bytes) = bytes := by
  unfold applyHeaderMask
  exact zipWith_xor_cancel _ _ (by simpa using h)

/-- Decoding an encoded header recovers the header exactly, for field values
inside their machine ranges and a zero reserved byte. -/
theorem PacketHeader.decode_encode (h : PacketHeader)
    (hc : h.connId < 2 ^ 64) (hp : h.packetNumber < 2 ^ 64)
    (hf : h.flags < 256) (hl : h.payloadLen < 2 ^ 16)
    (hr : h.reserved = 0) (hn : h.nonce.length = 12) :
    PacketHeader.decode h.encode = .ok h := by
  have hlen : h.encode.length = 32 := h.encode_length hn
  have e8 : h.encode = toLE 8 h.connId ++ (toLE 8 h.packetNumber
      ++ ([h.flags % 256, h.reserved % 256]
      ++ (toLE 2 h.payloadLen ++ h.nonce))) := by
    simp [PacketHeader.encode]
  have e16 : h.encode = (toLE 8 h.connId ++ toLE 8 h.packetNumber)
      ++ ([h.flags % 256, h.reserved % 256]
      ++ (toLE 2 h.payloadLen ++ h.nonce)) := by
    simp [PacketHeader.encode]
  have e18 : h.encode = (toLE 8 h.connId ++ toLE 8 h.packetNumber
      ++ [h.flags % 256, h.reserved % 256])
      ++ (toLE 2 h.payloadLen ++ h.nonce) := by
    simp [PacketHeader.encode]
  have e20 : h.encode = (toLE 8 h.connId ++ toLE 8 h.packetNumber
      ++ [h.flags % 256, h.reserved % 256] ++ toLE 2 h.payloadLen)
      ++ h.nonce := by
    simp [PacketHeader.encode]
  have hgd16 : h.encode.getD 16 0 = h.flags := by
    rw [e16, List.getD_append_right _ _ _ _ (by simp)]
    simp [Nat.mod_eq_of_lt hf]
  have hgd17 : h.encode.getD 17 0 = 0 := by
    rw [e16, List.getD_append_right _ _ _ _ (by simp)]
    simp [hr]
  have htake8 : h.encode.take 8 = toLE 8 h.connId := by
    rw [e8, List.take_append_of_le_length (by simp)]
    exact List.take_of_length_le (by simp)
  have hdrop8take : (h.encode.drop 8).take 8 = toLE 8 h.packetNumber := by
    rw [e8, List.drop_append_of_le_length (by simp),
      List.drop_of_length_le (by simp), List.nil_append,
      List.take_append_of_le_length (by simp)]
    exact List.take_of_length_le (by simp)
  have hdrop18take : (h.encode.drop 18).take 2 = toLE 2 h.payloadLen := by
    rw [e18, List.drop_append_of_le_length (by simp),
      List.drop_of_length_le (by simp), List.nil_append,
      List.take_append_of_le_length (by simp)]
    exact List.take_of_length_le (by simp)
  have hdrop20take : (h.encode.drop 20).take 12 = h.nonce := by
    rw [e20, List.drop_append_of_le_length (by simp),
      List.drop_of_length_le (by simp), List.nil_append]
    exact List.take_of_length_le (le_of_eq hn)
  have hc' : h.connId < 256 ^ 8 := by
    have : (256 : Nat) ^ 8 = 2 ^ 64 := by norm_num
    omega
  have hp' : h.packetNumber < 256 ^ 8 := by
    have : (256 : Nat) ^ 8 = 2 ^ 64 := by norm_num
    omega
  have hl' : h.payloadLen < 256 ^ 2 := by
    have : (256 : Nat) ^ 2 = 2 ^ 16 := by norm_num
    omega
  unfold PacketHeader.decode
  rw [if_neg (by rw [hlen]; norm_num [HEADER_SIZE])]
  simp only [hgd16, hgd17]
  rw [if_neg (by simp)]
  rw [htake8, hdrop8take, hdrop18take, hdrop20take,
    fromLE_toLE hc', fromLE_toLE hp', fromLE_toLE hl']
  exact congrArg Except.ok (by rw [← hr])

/-! ## Packet cipher (src/src/transport/packet_crypto.rs) -/

/-- The `nonce_from_packet_number` (src/src/transport/handshake.rs:396):
`bytes[idx] = pn.to_le_bytes()[idx % 8].wrapping_add((idx * 17) as u8)`. -/
def nonceFromPacketNumber (pn : Nat) : List Nat :=
  (List.range AEAD_NONCE_LEN).map
    (fun idx => (pn / 256 ^ (idx % 8) % 256 + idx * 17 % 256) % 256)

@[simp] theorem nonceFromPacketNumber_length (pn : Nat) :
    (nonceFromPacketNumber pn).length = 12 := by
  simp [nonceFromPacketNumber, AEAD_NONCE_LEN]

/-- Result of decrypting an inbound packet (`DecryptedPacket`). -/
structure DecryptedPacket where
  header : PacketHeader
  payload : List Nat
  deriving DecidableEq, Repr

/-- The `PacketCipher` state (src/src/transport/packet_crypto.rs:55).  The four
session keys are the byte arrays held by the Rust struct (the `SessionKeys`
wrapper is flattened into its four components). -/
structure PacketCipher where
  sendKey : List Nat
  receiveKey : List Nat
  sendHp : List Nat
  receiveHp : List Nat
  sendPacketNumber : Nat
  highestReceived : Option Nat
  deriving DecidableEq, Repr

/-- The `PacketCipher::seal_into` (src/src/transport/packet_crypto.rs:89).

The Rust method writes the packet into a caller-supplied `&mut [u8]`; only
the buffer's length affects control flow and only its first `total_len`
bytes (the packet) are ever read back by callers, so the embedding takes
the buffer length and returns the packet bytes.  On success the result is
`(packet_number, total_len, packet)` together with the updated cipher; on
error the cipher is returned unchanged together with the error. -/
def PacketCipher.sealInto (c : PacketCipher) (connId flags : Nat)
    (payload : List Nat) (bufferLen : Nat) :
    PacketCipher × Except TransportError (Nat × Nat × List Nat) :=
  let maxPayload := 65535 - AEAD_TAG_LEN
  if payload.length > maxPayload then
    (c, .error (.payloadTooLarge payload.length maxPayload))
  else
    let totalLen := HEADER_SIZE + payload.length + AEAD_TAG_LEN
    if bufferLen < totalLen then
      (c, .error (.bufferTooSmall totalLen bufferLen))
    else
      let packetNumber := c.sendPacketNumber
      let c' := { c with sendPacketNumber := (c.sendPacketNumber + 1) % 2 ^ 64 }
      let nonce := nonceFromPacketNumber packetNumber
      let header : PacketHeader :=
        { connId := connId
          packetNumber := packetNumber
          flags := flags
          payloadLen := (payload.length + AEAD_TAG_LEN) % 2 ^ 16
          reserved := 0
          nonce := nonce }
      let head := header.encode
      let (ciphertext, tag) := encrypt c.sendKey nonce payload head
      let body := ciphertext ++ tag
      let sample := buildHeaderSample body
      let mask := headerProtectionMask c.sendHp sample
      (c', .ok (packetNumber, totalLen, applyHeaderMask mask head ++ body))

/-- The pre-replay phase of `PacketCipher::open`
(src/src/transport/packet_crypto.rs:143-188): length checks, header
unmasking, header decode, payload-length checks and body splitting.  It
depends only on the packet bytes and the receive header-protection key.
Returns the decoded header, the unmasked header bytes (the AAD), the
ciphertext and the tag bytes. -/
def PacketCipher.openParse (c : PacketCipher) (packet : List Nat) :
    Except TransportError (PacketHeader × List Nat × List Nat × List Nat) :=
  if packet.length < HEADER_SIZE + AEAD_TAG_LEN then
    .error (.packet (.bufferTooSmall (HEADER_SIZE + AEAD_TAG_LEN) packet.length))
  else
    let headerBytes := packet.take HEADER_SIZE
    let body := packet.drop HEADER_SIZE
    if body.length < HEADER_PROTECTION_SAMPLE_LEN then
      .error (.bufferTooSmall HEADER_PROTECTION_SAMPLE_LEN body.length)
    else
      let sample := buildHeaderSample body
      let mask := headerProtectionMask c.receiveHp sample
      let unmaskedHeader := applyHeaderMask mask headerBytes
      match PacketHeader.decode unmaskedHeader with
      | .error e => .error (.packet e)
      | .ok header =>
        let payloadLen := header.payloadLen
        if payloadLen < AEAD_TAG_LEN then
          .error (.packet (.bufferTooSmall AEAD_TAG_LEN payloadLen))
        else if body.length < payloadLen then
          .error (.packet (.bufferTooSmall payloadLen body.length))
        else
          let cipherLen := payloadLen - AEAD_TAG_LEN
          .ok (header, unmaskedHeader, body.take cipherLen,
            (body.drop cipherLen).take AEAD_TAG_LEN)

/-- The tail of `PacketCipher::open` after the replay check
(src/src/transport/packet_crypto.rs:199-216): AEAD-decrypt with the
receive key, the header nonce and the unmasked header as AAD, then update
`highest_received` to the max of its previous value and the packet
number. -/
def PacketCipher.openFinish (c : PacketCipher) (header : PacketHeader)
    (unmaskedHeader ciphertext tag : List Nat) :
    PacketCipher × Except TransportError DecryptedPacket :=
  match decrypt c.receiveKey header.nonce ciphertext unmaskedHeader tag with
  | .error e => (c, .error (.crypto e))
  | .ok plaintext =>
    let newHighest :=
      match c.highestReceived with
      | some prev => max prev header.packetNumber
      | none => header.packetNumber
    ({ c with highestReceived := some newHighest },
     .ok { header := header, payload := plaintext })

/-- The `PacketCipher::open` (src/src/transport/packet_crypto.rs:143): parse,
replay check against `highest_received` (fail `ReplayDetected` when the
packet number is not strictly larger), then decrypt and update state.
Every failing path returns the cipher unchanged. -/
def PacketCipher.open (c : PacketCipher) (packet : List Nat) :
    PacketCipher × Except TransportError DecryptedPacket :=
  match c.openParse packet with
  | .error e => (c, .error e)
  | .ok (header, unmaskedHeader, ciphertext, tag) =>
    match c.highestReceived with
    | some highest =>
      if header.packetNumber ≤ highest then
        (c, .error (.replayDetected header.packetNumber highest))
      else
        c.openFinish header unmaskedHeader ciphertext tag
    | none => c.openFinish header unmaskedHeader ciphertext tag

@[simp] theorem encrypt_snd_length (key nonce p aad : List Nat) :
    (encrypt key nonce p aad).2.length = 16 := by
  simp [encrypt]

/-- C1: for every payload of length at most `u16::MAX - 16` and every
sufficiently large buffer, a packet produced by `PacketCipher::seal_into`
on a cipher with fresh packet numbers (every packet number already seen by
the peer is smaller) is accepted by `PacketCipher::open` on the peer
cipher initialized with the mirrored session keys, and `open` returns
exactly the original plaintext and the header fields (`conn_id`, packet
number, flags) that `seal_into` wrote.  Instantiated at the spec's
Scenario A by the witness: pn 0, a 66-byte packet, opened to conn_id
0xAA55, pn 0 and the same payload. -/
theorem sealInto_open_roundtrip
    (cs cr : PacketCipher) (connId flags : Nat) (payload : List Nat)
    (bufferLen : Nat)
    (hkey : cr.receiveKey = cs.sendKey) (hhp : cr.receiveHp = cs.sendHp)
    (hpay : payload.length ≤ 65535 - 16)
    (hbuf : 32 + payload.length + 16 ≤ bufferLen)
    (hpn : cs.sendPacketNumber < 2 ^ 64)
    (hconn : connId < 2 ^ 64) (hflags : flags < 256)
    (hfresh : ∀ x, cr.highestReceived = some x → x < cs.sendPacketNumber) :
    ∃ packet c',
      cs.sealInto connId flags payload bufferLen
        = (c', .ok (cs.sendPacketNumber, 32 + payload.length + 16, packet))
      ∧ (cr.open packet).2 = .ok {
          header := { connId := connId
                      packetNumber := cs.sendPacketNumber
                      flags := flags
                      payloadLen := payload.length + 16
                      reserved := 0
                      nonce := nonceFromPacketNumber cs.sendPacketNumber }
          payload := payload } := by
  have hplen : (payload.length + 16) % 2 ^ 16 = payload.length + 16 :=
    Nat.mod_eq_of_lt (by omega)
  set pn := cs.sendPacketNumber with hpndef
  set nonce := nonceFromPacketNumber pn with hnonce
  set header : PacketHeader :=
    { connId := connId, packetNumber := pn, flags := flags,
      payloadLen := payload.length + 16, reserved := 0,
      nonce := nonce } with hheader
  set head := header.encode with hhead
  set ct := (encrypt cs.sendKey nonce payload head).1 with hct
  set tag := (encrypt cs.sendKey nonce payload head).2 with htag
  set body := ct ++ tag with hbody
  set mask := headerProtectionMask cs.sendHp (buildHeaderSample body)
    with hmask
  set packet := applyHeaderMask mask head ++ body with hpacket
  have hnoncelen : nonce.length = 12 := by
    rw [hnonce]; exact nonceFromPacketNumber_length pn
  have hheadlen : head.length = 32 := by
    rw [hhead]; exact header.encode_length hnoncelen
  have hmaskedlen : (applyHeaderMask mask head).length = 32 := by
    rw [applyHeaderMask_length mask head (le_of_eq hheadlen), hheadlen]
  have hctlen : ct.length = payload.length := by
    rw [hct]; exact encrypt_fst_length _ _ _ _
  have htaglen : tag.length = 16 := by
    rw [htag]; exact encrypt_snd_length _ _ _ _
  have hbodylen : body.length = payload.length + 16 := by
    rw [hbody]; simp [hctlen, htaglen]
  have hpacketlen : packet.length = 32 + payload.length + 16 := by
    rw [hpacket]; simp [hmaskedlen, hbodylen]; omega
  have htake32 : packet.take 32 = applyHeaderMask mask head := by
    rw [hpacket, List.take_append_of_le_length (le_of_eq hmaskedlen.symm)]
    exact List.take_of_length_le (le_of_eq hmaskedlen)
  have hdrop32 : packet.drop 32 = body := by
    rw [hpacket, List.drop_append_of_le_length (le_of_eq hmaskedlen.symm),
      List.drop_of_length_le (le_of_eq hmaskedlen), List.nil_append]
  have hdecode : PacketHeader.decode head = .ok header := by
    rw [hhead]
    exact header.decode_encode (by rw [hheader]; exact hconn)
      (by rw [hheader]; exact hpn) (by rw [hheader]; exact hflags)
      (by rw [hheader]; show payload.length + 16 < 2 ^ 16; omega)
      (by rw [hheader]) (by rw [hheader]; exact hnoncelen)
  have hctake : body.take (payload.length + 16 - 16) = ct := by
    have : payload.length + 16 - 16 = payload.length := by omega
    rw [this, hbody, List.take_append_of_le_length (le_of_eq hctlen.symm)]
    exact List.take_of_length_le (le_of_eq hctlen)
  have httake : (body.drop (payload.length + 16 - 16)).take 16 = tag := by
    have : payload.length + 16 - 16 = payload.length := by omega
    rw [this, hbody, List.drop_append_of_le_length (le_of_eq hctlen.symm),
      List.drop_of_length_le (le_of_eq hctlen), List.nil_append]
    exact List.take_of_length_le (le_of_eq htaglen)
  have hparse : cr.openParse packet = .ok (header, head, ct, tag) := by
    unfold PacketCipher.openParse
    rw [if_neg (by rw [hpacketlen]; simp [HEADER_SIZE, AEAD_TAG_LEN])]
    have hbodyeq : packet.drop HEADER_SIZE = body := by
      simpa [HEADER_SIZE] using hdrop32
    have hheaderbytes : packet.take HEADER_SIZE = applyHeaderMask mask head := by
      simpa [HEADER_SIZE] using htake32
    simp only [hbodyeq, hheaderbytes]
    rw [if_neg (by rw [hbodylen]; simp [HEADER_PROTECTION_SAMPLE_LEN])]
    rw [hhp]
    rw [applyHeaderMask_involution mask head (le_of_eq hheadlen)]
    rw [hdecode]
    simp only
    rw [if_neg (by simp [AEAD_TAG_LEN])]
    rw [if_neg (by rw [hbodylen]; simp)]
    simp only [AEAD_TAG_LEN]
    rw [hctake, httake]
  have hfinish : (cr.openFinish header head ct tag).2
      = .ok { header := header, payload := payload } := by
    unfold PacketCipher.openFinish
    have : decrypt cr.receiveKey header.nonce ct head tag = .ok payload := by
      rw [hkey, hct]
      have : header.nonce = nonce := by rw [hheader]
      rw [this]
      exact decrypt_encrypt _ _ _ _ _ _
    rw [this]
  refine ⟨packet, { cs with sendPacketNumber := (cs.sendPacketNumber + 1) % 2 ^ 64 }, ?_, ?_⟩
  · unfold PacketCipher.sealInto
    rw [if_neg (by simp only [AEAD_TAG_LEN]; omega)]
    rw [if_neg (by simp only [HEADER_SIZE, AEAD_TAG_LEN]; omega)]
    simp only [HEADER_SIZE, AEAD_TAG_LEN, hplen]
  · unfold PacketCipher.open
    rw [hparse]
    simp only
    cases hh : cr.highestReceived with
    | none => exact hfinish
    | some x =>
        have hx : ¬ pn ≤ x := by
          have := hfresh x hh
          omega
        show (if pn ≤ x then
            (cr, Except.error (TransportError.replayDetected pn x))
          else cr.openFinish header head ct tag).2
          = Except.ok { header := header, payload := payload }
        rw [if_neg hx]
        exact hfinish

/-! ### Scenario A inputs (spec §8): session keys 0x11/0x22/0x33/0x44,
conn_id 0xAA55, flags 0, plaintext "hello secure world" -/

/-- Scenario A initiator cipher: send key 0x11×32, receive key 0x22×32,
send hp key 0x33×32, receive hp key 0x44×32, fresh packet numbers. -/
def scenarioInitiator : PacketCipher :=
  { sendKey := List.replicate 32 0x11
    receiveKey := List.replicate 32 0x22
    sendHp := List.replicate 32 0x33
    receiveHp := List.replicate 32 0x44
    sendPacketNumber := 0
    highestReceived := none }

/-- Scenario A responder cipher with the mirrored session keys. -/
def scenarioResponder : PacketCipher :=
  { sendKey := List.replicate 32 0x22
    receiveKey := List.replicate 32 0x11
    sendHp := List.replicate 32 0x44
    receiveHp := List.replicate 32 0x33
    sendPacketNumber := 0
    highestReceived := none }

/-- The bytes of "hello secure world" (18 bytes). -/
def helloPayload : List Nat :=
  [104, 101, 108, 108, 111, 32, 115, 101, 99, 117, 114, 101, 32, 119,
   111, 114, 108, 100]

/-- Witness for C1: Scenario A.  Sealing conn_id 0xAA55, flags 0,
"hello secure world" on the fresh initiator yields pn 0 and a 66-byte
packet that the responder opens to conn_id 0xAA55, pn 0, payloadLen 34 and
the same payload. -/
theorem sealInto_open_roundtrip_witness :
    ∃ packet c',
      scenarioInitiator.sealInto 0xAA55 0 helloPayload 2048
        = (c', .ok (0, 66, packet))
      ∧ (scenarioResponder.open packet).2 = .ok {
          header := { connId := 0xAA55
                      packetNumber := 0
                      flags := 0
                      payloadLen := 34
                      reserved := 0
                      nonce := nonceFromPacketNumber 0 }
          payload := helloPayload } :=
  sealInto_open_roundtrip scenarioInitiator scenarioResponder 0xAA55 0
    helloPayload 2048 rfl rfl (by decide) (by decide) (by decide)
    (by decide) (by decide) (by intro x hx; cases hx)

/-- C9: whenever `PacketCipher::seal_into` returns an error, the cipher
state is unchanged (in particular no packet number is consumed), and the
error is `PayloadTooLarge` because the payload exceeds `u16::MAX - 16`
bytes or `BufferTooSmall` because the buffer is shorter than
`32 + payload length + 16`. -/
theorem sealInto_error_state_unchanged
    (c : PacketCipher) (connId flags : Nat) (payload : List Nat)
    (bufferLen : Nat) (e : TransportError)
    (h : (c.sealInto connId flags payload bufferLen).2 = .error e) :
    (c.sealInto connId flags payload bufferLen).1 = c
    ∧ ((e = .payloadTooLarge payload.length (65535 - 16)
          ∧ payload.length > 65535 - 16)
        ∨ (e = .bufferTooSmall (32 + payload.length + 16) bufferLen
          ∧ bufferLen < 32 + payload.length + 16)) := by
  unfold PacketCipher.sealInto at h ⊢
  simp only [AEAD_TAG_LEN, HEADER_SIZE] at h ⊢
  by_cases h1 : payload.length > 65535 - 16
  · rw [if_pos h1] at h ⊢
    simp only [Except.error.injEq] at h
    exact ⟨rfl, Or.inl ⟨h.symm, h1⟩⟩
  · rw [if_neg h1] at h ⊢
    by_cases h2 : bufferLen < 32 + payload.length + 16
    · rw [if_pos h2] at h ⊢
      simp only [Except.error.injEq] at h
      exact ⟨rfl, Or.inr ⟨h.symm, h2⟩⟩
    · rw [if_neg h2] at h
      simp at h

/-- Witness for C9: sealing an empty payload into a zero-length buffer
fails with `BufferTooSmall` and leaves the initiator cipher unchanged. -/
theorem sealInto_error_state_unchanged_witness :
    (scenarioInitiator.sealInto 1 0 [] 0).1 = scenarioInitiator :=
  (sealInto_error_state_unchanged scenarioInitiator 1 0 [] 0
    (.bufferTooSmall 48 0) (by decide)).1

/-- The `openParse` never produces a `ReplayDetected` error: the replay check
happens after parsing, in `open` itself. -/
theorem openParse_ne_replay (c : PacketCipher) (p : List Nat)
    (pnv hv : Nat) : c.openParse p ≠ .error (.replayDetected pnv hv) := by
  unfold PacketCipher.openParse
  intro h
  split at h
  · simp at h
  · simp only at h
    split at h
    · simp at h
    · split at h
      · simp at h
      · split at h
        · simp at h
        · split at h
          · simp at h
          · simp at h

/-- The `openFinish` unfolded: the placeholder `decrypt` always succeeds, so
`openFinish` always returns `Ok` and bumps `highest_received`. -/
theorem openFinish_eq (c : PacketCipher) (hd : PacketHeader)
    (u ct tg : List Nat) :
    c.openFinish hd u ct tg =
      ({ c with highestReceived := some (match c.highestReceived with
          | some prev => max prev hd.packetNumber
          | none => hd.packetNumber) },
       .ok { header := hd,
             payload := (encrypt c.receiveKey hd.nonce ct []).1 }) := rfl

/-- The `openParse` reads only the packet bytes and the receive
header-protection key of the cipher. -/
theorem openParse_hp (c c' : PacketCipher) (p : List Nat)
    (h : c.receiveHp = c'.receiveHp) : c.openParse p = c'.openParse p := by
  unfold PacketCipher.openParse
  rw [h]

/-- C2: `PacketCipher::open` fails with `ReplayDetected` exactly when the
packet parses and `highest_received` is set with the decoded packet number
at most that value; a failing `open` leaves the cipher (in particular
`highest_received`) unchanged; and after a successful `open`, a second
`open` of the very same bytes fails with `ReplayDetected`. -/
theorem open_replay_semantics (c : PacketCipher) (packet : List Nat) :
    ((∃ pnv hv, (c.open packet).2 = .error (.replayDetected pnv hv))
      ↔ (∃ hd u ct tg, c.openParse packet = .ok (hd, u, ct, tg)
          ∧ ∃ hv, c.highestReceived = some hv ∧ hd.packetNumber ≤ hv))
    ∧ (∀ e, (c.open packet).2 = .error e → (c.open packet).1 = c)
    ∧ (∀ c' d, c.open packet = (c', .ok d) →
        ∃ hv, d.header.packetNumber ≤ hv
          ∧ (c'.open packet).2
            = .error (.replayDetected d.header.packetNumber hv)) := by
  refine ⟨⟨?_, ?_⟩, ?_, ?_⟩
  · rintro ⟨pnv, hv, herr⟩
    unfold PacketCipher.open at herr
    cases hp : c.openParse packet with
    | error e =>
        rw [hp] at herr
        simp only [Except.error.injEq] at herr
        exact absurd (hp.trans (by rw [herr]))
          (openParse_ne_replay c packet pnv hv)
    | ok val =>
        obtain ⟨hd, u, ct, tg⟩ := val
        rw [hp] at herr
        simp only at herr
        cases hh : c.highestReceived with
        | none =>
            rw [hh] at herr
            simp only at herr
            rw [openFinish_eq] at herr
            simp at herr
        | some hv2 =>
            rw [hh] at herr
            simp only at herr
            by_cases hle : hd.packetNumber ≤ hv2
            · exact ⟨hd, u, ct, tg, rfl, hv2, rfl, hle⟩
            · rw [if_neg hle] at herr
              rw [openFinish_eq] at herr
              simp at herr
  · rintro ⟨hd, u, ct, tg, hp, hv, hh, hle⟩
    unfold PacketCipher.open
    rw [hp]
    simp only
    rw [hh]
    simp only
    rw [if_pos hle]
    exact ⟨hd.packetNumber, hv, rfl⟩
  · intro e herr
    unfold PacketCipher.open at herr ⊢
    cases hp : c.openParse packet with
    | error e2 => rfl
    | ok val =>
        obtain ⟨hd, u, ct, tg⟩ := val
        rw [hp] at herr
        simp only at herr ⊢
        cases hh : c.highestReceived with
        | none =>
            rw [hh] at herr
            simp only at herr
            rw [openFinish_eq] at herr
            simp at herr
        | some hv2 =>
            rw [hh] at herr
            simp only at herr ⊢
            by_cases hle : hd.packetNumber ≤ hv2
            · rw [if_pos hle]
            · rw [if_neg hle] at herr
              rw [openFinish_eq] at herr
              simp at herr
  · intro c2 d hsucc
    unfold PacketCipher.open at hsucc
    cases hp : c.openParse packet with
    | error e =>
        rw [hp] at hsucc
        simp at hsucc
    | ok val =>
        obtain ⟨hd, u, ct, tg⟩ := val
        rw [hp] at hsucc
        simp only at hsucc
        have key : ∃ nh, c2 = { c with highestReceived := some nh }
            ∧ d.header = hd ∧ hd.packetNumber ≤ nh := by
          cases hh : c.highestReceived with
          | none =>
              rw [hh] at hsucc
              simp only at hsucc
              rw [openFinish_eq, hh] at hsucc
              simp only [Prod.mk.injEq, Except.ok.injEq] at hsucc
              obtain ⟨h1, h2⟩ := hsucc
              exact ⟨hd.packetNumber, h1.symm, by rw [← h2], le_refl _⟩
          | some prev =>
              rw [hh] at hsucc
              simp only at hsucc
              by_cases hle : hd.packetNumber ≤ prev
              · rw [if_pos hle] at hsucc
                simp at hsucc
              · rw [if_neg hle] at hsucc
                rw [openFinish_eq, hh] at hsucc
                simp only [Prod.mk.injEq, Except.ok.injEq] at hsucc
                obtain ⟨h1, h2⟩ := hsucc
                exact ⟨max prev hd.packetNumber, h1.symm, by rw [← h2],
                  le_max_right _ _⟩
        obtain ⟨nh, hc2, hdhd, hle⟩ := key
        have hp2 : c2.openParse packet = .ok (hd, u, ct, tg) := by
          rw [← openParse_hp c c2 packet (by rw [hc2])]
          exact hp
        refine ⟨nh, by rw [hdhd]; exact hle, ?_⟩
        unfold PacketCipher.open
        rw [hp2]
        simp only
        have hhr : c2.highestReceived = some nh := by rw [hc2]
        rw [hhr]
        simp only
        rw [hdhd, if_pos hle]

/-- The concrete Scenario A packet: the bytes produced by sealing
conn_id 0xAA55, flags 0, "hello secure world" on the fresh initiator. -/
def scenarioPacket : List Nat :=
  match (scenarioInitiator.sealInto 0xAA55 0 helloPayload 2048).2 with
  | .ok (_, _, pkt) => pkt
  | .error _ => []

/-- Witness for C2: the responder opens the Scenario A packet once
successfully; opening the very same bytes again fails with
`ReplayDetected` (pn 0, highest seen 0). -/
theorem open_replay_semantics_witness :
    ∃ hv, (0 : Nat) ≤ hv
      ∧ (({ scenarioResponder with highestReceived := some 0 }
          : PacketCipher).open scenarioPacket).2
        = .error (.replayDetected 0 hv) := by
  have h := (open_replay_semantics scenarioResponder scenarioPacket).2.2
    { scenarioResponder with highestReceived := some 0 }
    { header := { connId := 0xAA55
                  packetNumber := 0
                  flags := 0
                  payloadLen := 34
                  reserved := 0
                  nonce := [0, 17, 34, 51, 68, 85, 102, 119, 136, 153,
                            170, 187] }
      payload := helloPayload }
    (by decide)
  exact h

/-! ## C7: which header bytes does `apply_header_mask` touch? -/

theorem getD_replicate_zero (n i : Nat) :
    (List.replicate n (0 : Nat)).getD i 0 = 0 := by
  rcases Nat.lt_or_ge i n with h | h
  · rw [List.getD_eq_getElem _ _ (by simpa using h)]
    simp
  · rw [List.getD_eq_default _ _ (by simpa using h)]

/-- The expansion of the mask over the header: byte 16 receives `mask[0]`,
bytes 8..16 receive `mask[1..9]`, every other byte receives 0. -/
theorem maskExpansion_getD (mask : List Nat) (i : Nat) :
    (maskExpansion mask).getD i 0 =
      if i = 16 then mask.getD 0 0
      else if 8 ≤ i ∧ i < 16 then mask.getD (i - 7) 0
      else 0 := by
  unfold maskExpansion
  simp only [List.append_assoc]
  rcases Nat.lt_or_ge i 8 with h8 | h8
  · rw [List.getD_append _ _ _ _ (by simp; omega)]
    rw [if_neg (by omega), if_neg (by omega)]
    exact getD_replicate_zero _ _
  · rw [List.getD_append_right _ _ _ _ (by simp; omega)]
    simp only [List.length_replicate]
    rcases Nat.lt_or_ge i 16 with h16 | h16
    · rw [List.getD_append _ _ _ _ (by simp; omega)]
      rw [if_neg (by omega), if_pos ⟨h8, h16⟩]
      rw [List.getD_eq_getElem _ _ (by simp; omega), List.getElem_map,
        List.getElem_range]
      congr 1
      omega
    · rw [List.getD_append_right _ _ _ _ (by simp; omega)]
      simp only [List.length_map, List.length_range]
      rcases Nat.lt_or_ge i 17 with h17 | h17
      · have : i = 16 := by omega
        subst this
        simp
      · rw [List.getD_append_right _ _ _ _ (by simp; omega)]
        rw [if_neg (by omega), if_neg (by omega)]
        simp only [List.length_cons, List.length_nil]
        exact getD_replicate_zero _ _

/-- Pointwise description of `apply_header_mask` on a 32-byte header. -/
theorem applyHeaderMask_getD (mask bytes : List Nat)
    (hb : bytes.length = 32) (i : Nat) (hi : i < 32) :
    (applyHeaderMask mask bytes).getD i 0
      = bytes.getD i 0 ^^^ (maskExpansion mask).getD i 0 := by
  unfold applyHeaderMask
  have hlen : (List.zipWith (· ^^^ ·) bytes (maskExpansion mask)).length
      = 32 := by
    simp [hb]
  rw [List.getD_eq_getElem _ _ (by omega), List.getElem_zipWith,
    List.getD_eq_getElem _ _ (by omega),
    List.getD_eq_getElem _ _ (by simp; omega)]

/-- C7 (amended): on a 32-byte header with a (≥9-byte) mask,
`apply_header_mask` XORs `mask[0]` into the flags byte (byte 16) and
`mask[1..9]` into ALL EIGHT bytes of the packet-number field
(bytes 8..15); every other header byte is unmodified; applying the same
operation again restores the original bytes.  (The spec's claim that only
the first four packet-number bytes are masked is refuted by
`applyHeaderMask_claim_counterexample`.) -/
theorem applyHeaderMask_bytes (mask bytes : List Nat)
    (hb : bytes.length = 32) (_hm : mask.length = 9) :
    ((applyHeaderMask mask bytes).getD 16 0
        = bytes.getD 16 0 ^^^ mask.getD 0 0)
    ∧ (∀ i, 8 ≤ i → i < 16 →
        (applyHeaderMask mask bytes).getD i 0
          = bytes.getD i 0 ^^^ mask.getD (i - 7) 0)
    ∧ (∀ i, i < 32 → (i < 8 ∨ 16 < i) →
        (applyHeaderMask mask bytes).getD i 0 = bytes.getD i 0)
    ∧ applyHeaderMask mask (applyHeaderMask mask bytes) = bytes := by
  refine ⟨?_, ?_, ?_, applyHeaderMask_involution mask bytes (by omega)⟩
  · rw [applyHeaderMask_getD mask bytes hb 16 (by omega),
      maskExpansion_getD]
    simp
  · intro i h1 h2
    rw [applyHeaderMask_getD mask bytes hb i (by omega),
      maskExpansion_getD]
    rw [if_neg (by omega), if_pos ⟨h1, h2⟩]
  · intro i h1 h2
    rw [applyHeaderMask_getD mask bytes hb i h1, maskExpansion_getD]
    rw [if_neg (by omega), if_neg (by omega)]
    simp

/-- Witness for C7 (amended), at a concrete header and mask. -/
theorem applyHeaderMask_bytes_witness :
    ((applyHeaderMask (List.range 9) (List.replicate 32 7)).getD 16 0
        = (List.replicate 32 7).getD 16 0 ^^^ (List.range 9).getD 0 0)
    ∧ (∀ i, 8 ≤ i → i < 16 →
        (applyHeaderMask (List.range 9) (List.replicate 32 7)).getD i 0
          = (List.replicate 32 7).getD i 0 ^^^ (List.range 9).getD (i - 7) 0)
    ∧ (∀ i, i < 32 → (i < 8 ∨ 16 < i) →
        (applyHeaderMask (List.range 9) (List.replicate 32 7)).getD i 0
          = (List.replicate 32 7).getD i 0)
    ∧ applyHeaderMask (List.range 9)
        (applyHeaderMask (List.range 9) (List.replicate 32 7))
      = List.replicate 32 7 :=
  applyHeaderMask_bytes (List.range 9) (List.replicate 32 7)
    (by decide) (by decide)

/-- Counterexample to C7 as stated: with mask byte 5 nonzero,
`apply_header_mask` modifies header byte 12, the fifth byte of the
packet-number field, which the claim says is transmitted unmodified. -/
theorem applyHeaderMask_claim_counterexample :
    (applyHeaderMask [0, 0, 0, 0, 0, 1, 0, 0, 0]
        (List.replicate 32 0)).getD 12 0
      ≠ (List.replicate 32 0).getD 12 0 := by decide

/-! ## C6: loss-detection time threshold (src/src/transport/loss.rs)

Durations are modelled in nanoseconds (`Duration::as_nanos`). -/

/-- The `LossConfig` (src/src/transport/loss.rs:73); only the fields read by
`time_threshold` plus `packet_threshold`/`max_ack_delay` for completeness.
Durations in nanoseconds. -/
structure LossConfig where
  packetThreshold : Nat
  timeThresholdFactorNumerator : Nat
  timeThresholdFactorDenominator : Nat
  initialRtt : Nat
  maxAckDelay : Nat
  deriving DecidableEq, Repr

/-- The `LossConfig::default` (src/src/transport/loss.rs:86): threshold 3,
factor 9/8, initial RTT 333 ms, max ACK delay 25 ms. -/
def LossConfig.default : LossConfig :=
  { packetThreshold := 3
    timeThresholdFactorNumerator := 9
    timeThresholdFactorDenominator := 8
    initialRtt := 333000000
    maxAckDelay := 25000000 }

/-- The `scale_duration` (src/src/transport/loss.rs:382): when the denominator
is nonzero, scale the base by numerator/denominator in u128 arithmetic,
cap at `u64::MAX` nanoseconds, and floor at 1 µs (= 1000 ns). -/
def scaleDuration (base numerator denominator : Nat) : Nat :=
  if denominator = 0 then base
  else max (min (base * numerator / denominator) (2 ^ 64 - 1)) 1000

/-- The RTT-estimate portion of the `LossManager` state
(src/src/transport/loss.rs:100) read by `time_threshold`; the outstanding
queue and timers do not feed the threshold. -/
structure LossRttState where
  config : LossConfig
  latestRtt : Option Nat
  smoothedRtt : Option Nat
  deriving DecidableEq, Repr

/-- The `LossManager::time_threshold` (src/src/transport/loss.rs:322): the base
is `latest_rtt.or(smoothed_rtt).unwrap_or(initial_rtt)` — the FIRST
available of the three, not their maximum — scaled by the configured
factor. -/
def timeThreshold (m : LossRttState) : Option Nat :=
  some (scaleDuration ((m.latestRtt.or m.smoothedRtt).getD m.config.initialRtt)
    m.config.timeThresholdFactorNumerator
    m.config.timeThresholdFactorDenominator)

/-- The spec's §4.6 formula, stated from the spec's words for comparison:
`max(latest_rtt, smoothed_rtt, initial_rtt) · 9/8, bounded below by 1 µs`
(absent samples contribute nothing to the maximum). -/
def specTimeThreshold (m : LossRttState) : Nat :=
  scaleDuration
    (max (m.latestRtt.getD 0) (max (m.smoothedRtt.getD 0) m.config.initialRtt))
    m.config.timeThresholdFactorNumerator
    m.config.timeThresholdFactorDenominator

/-- C6 (amended): the loss-detection time threshold is the FIRST AVAILABLE
of latest_rtt, smoothed_rtt and the configured initial_rtt — not their
maximum — multiplied by the configured numerator/denominator (9/8 by
default), capped at `u64::MAX` nanoseconds, and never less than
1 microsecond. -/
theorem timeThreshold_first_available (m : LossRttState)
    (hden : m.config.timeThresholdFactorDenominator ≠ 0) :
    (∀ l, m.latestRtt = some l →
        timeThreshold m = some (max (min
          (l * m.config.timeThresholdFactorNumerator
            / m.config.timeThresholdFactorDenominator) (2 ^ 64 - 1)) 1000))
    ∧ (m.latestRtt = none → ∀ sm, m.smoothedRtt = some sm →
        timeThreshold m = some (max (min
          (sm * m.config.timeThresholdFactorNumerator
            / m.config.timeThresholdFactorDenominator) (2 ^ 64 - 1)) 1000))
    ∧ (m.latestRtt = none → m.smoothedRtt = none →
        timeThreshold m = some (max (min
          (m.config.initialRtt * m.config.timeThresholdFactorNumerator
            / m.config.timeThresholdFactorDenominator) (2 ^ 64 - 1)) 1000))
    ∧ (∀ t, timeThreshold m = some t → 1000 ≤ t) := by
  refine ⟨?_, ?_, ?_, ?_⟩
  · intro l hl
    unfold timeThreshold scaleDuration
    rw [hl, if_neg hden]
    simp [Option.or]
  · intro hl sm hsm
    unfold timeThreshold scaleDuration
    rw [hl, hsm, if_neg hden]
    simp [Option.or]
  · intro hl hsm
    unfold timeThreshold scaleDuration
    rw [hl, hsm, if_neg hden]
    simp [Option.or]
  · intro t ht
    unfold timeThreshold scaleDuration at ht
    rw [if_neg hden] at ht
    simp only [Option.some.injEq] at ht
    omega

/-- Witness for C6 (amended) at a concrete state: latest 1 ms present, so
the threshold is 1 ms · 9/8 = 1.125 ms. -/
theorem timeThreshold_first_available_witness :
    timeThreshold { config := LossConfig.default
                    latestRtt := some 1000000
                    smoothedRtt := some 100000000 }
      = some (max (min (1000000 * 9 / 8) (2 ^ 64 - 1)) 1000) :=
  (timeThreshold_first_available _ (by decide)).1 1000000 rfl

/-- Counterexample to C6 as stated: with latest_rtt = 1 ms,
smoothed_rtt = 100 ms and the default initial_rtt = 333 ms, the code
returns 1.125 ms whereas the claimed max-based formula gives 374.625 ms. -/
theorem timeThreshold_claim_counterexample :
    timeThreshold { config := LossConfig.default
                    latestRtt := some 1000000
                    smoothedRtt := some 100000000 }
      = some 1125000
    ∧ specTimeThreshold { config := LossConfig.default
                          latestRtt := some 1000000
                          smoothedRtt := some 100000000 }
      = 374625000
    ∧ (1125000 : Nat) ≠ 374625000 := by
  refine ⟨?_, ?_, by decide⟩
  · show some (scaleDuration 1000000 9 8) = some 1125000
    norm_num [scaleDuration]
  · show scaleDuration 333000000 9 8 = 374625000
    norm_num [scaleDuration]

/-! ## C8: anti-amplification guard (src/src/transport/anti_amplification.rs)

`usize` arithmetic is 64-bit saturating in the source
(`saturating_add` / `saturating_mul` / `saturating_sub`). -/

/-- The `usize::MAX` on a 64-bit target. -/
def USIZE_MAX : Nat := 2 ^ 64 - 1

/-- The `usize::saturating_add`. -/
def satAdd (a b : Nat) : Nat := min (a + b) USIZE_MAX

/-- The `usize::saturating_mul`. -/
def satMul (a b : Nat) : Nat := min (a * b) USIZE_MAX

/-- The `AmplificationConfig` (src/src/transport/anti_amplification.rs:8). -/
structure AmplificationConfig where
  factor : Nat
  initialAllowance : Nat
  deriving DecidableEq, Repr

/-- The `AmplificationConfig::default`: factor 3, allowance 3 × 1200 = 3600. -/
def AmplificationConfig.default : AmplificationConfig :=
  { factor := 3, initialAllowance := 1200 * 3 }

/-- The `AntiAmplificationGuard` (src/src/transport/anti_amplification.rs:26). -/
structure AntiAmplificationGuard where
  config : AmplificationConfig
  received : Nat
  sent : Nat
  verified : Bool
  deriving DecidableEq, Repr

/-- The `AntiAmplificationGuard::new`. -/
def AntiAmplificationGuard.new (config : AmplificationConfig) :
    AntiAmplificationGuard :=
  { config := config, received := 0, sent := 0, verified := false }

/-- The `on_receive` (src/src/transport/anti_amplification.rs:46). -/
def AntiAmplificationGuard.onReceive (g : AntiAmplificationGuard)
    (bytes : Nat) : AntiAmplificationGuard :=
  { g with received := satAdd g.received bytes }

/-- The `available_budget` (src/src/transport/anti_amplification.rs:73). -/
def AntiAmplificationGuard.availableBudget (g : AntiAmplificationGuard) :
    Nat :=
  if g.verified then USIZE_MAX
  else satAdd (satMul g.received g.config.factor) g.config.initialAllowance
    - g.sent

/-- The `try_consume` (src/src/transport/anti_amplification.rs:51): returns the
updated guard and whether the reservation was permitted. -/
def AntiAmplificationGuard.tryConsume (g : AntiAmplificationGuard)
    (bytes : Nat) : AntiAmplificationGuard × Bool :=
  if g.verified then ({ g with sent := satAdd g.sent bytes }, true)
  else if bytes ≤ g.availableBudget then
    ({ g with sent := satAdd g.sent bytes }, true)
  else (g, false)

/-- The `mark_verified` (src/src/transport/anti_amplification.rs:67). -/
def AntiAmplificationGuard.markVerified (g : AntiAmplificationGuard) :
    AntiAmplificationGuard :=
  { g with verified := true }

/-- An operation sequence on a guard that has not been verified: received
bytes and attempted sends (C8 quantifies over these). -/
inductive GuardOp where
  | receive (n : Nat)
  | consume (n : Nat)
  deriving DecidableEq, Repr

/-- Run a sequence of operations against a guard. -/
def execOps (g : AntiAmplificationGuard) : List GuardOp →
    AntiAmplificationGuard
  | [] => g
  | .receive n :: rest => execOps (g.onReceive n) rest
  | .consume n :: rest => execOps (g.tryConsume n).1 rest

/-- Total bytes admitted by the successful `try_consume` calls of a run. -/
def admittedBytes (g : AntiAmplificationGuard) : List GuardOp → Nat
  | [] => 0
  | .receive n :: rest => admittedBytes (g.onReceive n) rest
  | .consume n :: rest =>
      (if (g.tryConsume n).2 then n else 0)
        + admittedBytes (g.tryConsume n).1 rest

/-- Total bytes handed to `on_receive` in a run. -/
def receivedTotal : List GuardOp → Nat
  | [] => 0
  | .receive n :: rest => n + receivedTotal rest
  | .consume _ :: rest => receivedTotal rest

/-- The saturating budget bound of a guard state. -/
def budgetBound (g : AntiAmplificationGuard) : Nat :=
  satAdd (satMul g.received g.config.factor) g.config.initialAllowance

theorem budgetBound_le (g : AntiAmplificationGuard) :
    budgetBound g ≤ g.received * g.config.factor + g.config.initialAllowance := by
  unfold budgetBound satAdd satMul
  have h1 : min (g.received * g.config.factor) USIZE_MAX
      ≤ g.received * g.config.factor := Nat.min_le_left _ _
  calc min (min (g.received * g.config.factor) USIZE_MAX
        + g.config.initialAllowance) USIZE_MAX
      ≤ min (g.received * g.config.factor) USIZE_MAX
        + g.config.initialAllowance := Nat.min_le_left _ _
    _ ≤ g.received * g.config.factor + g.config.initialAllowance := by omega

/-- Invariant maintained by runs on an unverified guard. -/
def GuardInv (g : AntiAmplificationGuard) : Prop :=
  g.verified = false ∧ g.sent ≤ budgetBound g ∧ g.received ≤ USIZE_MAX
    ∧ g.sent ≤ USIZE_MAX

theorem guardInv_new (config : AmplificationConfig) :
    GuardInv (AntiAmplificationGuard.new config) := by
  refine ⟨rfl, ?_, ?_, ?_⟩ <;>
    simp [AntiAmplificationGuard.new, budgetBound, satAdd, satMul, USIZE_MAX]

theorem guardInv_onReceive (g : AntiAmplificationGuard) (n : Nat)
    (h : GuardInv g) : GuardInv (g.onReceive n) := by
  obtain ⟨hv, hs, hr, hm⟩ := h
  refine ⟨hv, ?_, ?_, hm⟩
  · unfold AntiAmplificationGuard.onReceive budgetBound satAdd satMul at *
    simp only at *
    have hrec : g.received ≤ min (g.received + n) USIZE_MAX := by omega
    have : min (g.received * g.config.factor) USIZE_MAX
        ≤ min (min (g.received + n) USIZE_MAX * g.config.factor) USIZE_MAX := by
      have := Nat.mul_le_mul_right g.config.factor hrec
      omega
    omega
  · unfold AntiAmplificationGuard.onReceive satAdd
    simp only
    omega

theorem guardInv_tryConsume (g : AntiAmplificationGuard) (n : Nat)
    (h : GuardInv g) : GuardInv (g.tryConsume n).1
      ∧ ((g.tryConsume n).2 = true → (g.tryConsume n).1.sent = g.sent + n)
      ∧ ((g.tryConsume n).2 = false → (g.tryConsume n).1 = g) := by
  obtain ⟨hv, hs, hr, hm⟩ := h
  have hbudget : g.availableBudget = budgetBound g - g.sent := by
    unfold AntiAmplificationGuard.availableBudget budgetBound
    rw [hv]
    simp
  unfold AntiAmplificationGuard.tryConsume
  rw [hv]
  simp only [Bool.false_eq_true, if_false]
  by_cases hle : n ≤ g.availableBudget
  · rw [if_pos hle]
    rw [hbudget] at hle
    have hbb : budgetBound g ≤ USIZE_MAX := by
      unfold budgetBound satAdd
      omega
    have hsum : g.sent + n ≤ budgetBound g := by omega
    have hsat : satAdd g.sent n = g.sent + n := by
      unfold satAdd
      omega
    refine ⟨⟨rfl, ?_, hr, ?_⟩, fun _ => hsat, fun hcon => by simp at hcon⟩
    · show satAdd g.sent n ≤ budgetBound
        { config := g.config, received := g.received,
          sent := satAdd g.sent n, verified := false }
      have hbb2 : budgetBound
          { config := g.config, received := g.received,
            sent := satAdd g.sent n, verified := false }
          = budgetBound g := rfl
      rw [hbb2, hsat]
      exact hsum
    · show satAdd g.sent n ≤ USIZE_MAX
      rw [hsat]
      omega
  · rw [if_neg hle]
    exact ⟨⟨hv, hs, hr, hm⟩, fun hcon => by simp at hcon, fun _ => rfl⟩

theorem tryConsume_received_eq (g : AntiAmplificationGuard) (n : Nat) :
    (g.tryConsume n).1.received = g.received := by
  unfold AntiAmplificationGuard.tryConsume
  split
  · rfl
  · split
    · rfl
    · rfl

theorem tryConsume_config_eq (g : AntiAmplificationGuard) (n : Nat) :
    (g.tryConsume n).1.config = g.config := by
  unfold AntiAmplificationGuard.tryConsume
  split
  · rfl
  · split
    · rfl
    · rfl

theorem execOps_config_eq (g0 : AntiAmplificationGuard) (l : List GuardOp) :
    (execOps g0 l).config = g0.config := by
  induction l generalizing g0 with
  | nil => rfl
  | cons op rest ih =>
      cases op with
      | receive n =>
          show (execOps (g0.onReceive n) rest).config = g0.config
          rw [ih]
          rfl
      | consume n =>
          show (execOps (g0.tryConsume n).1 rest).config = g0.config
          rw [ih, tryConsume_config_eq]

theorem guardInv_exec (g : AntiAmplificationGuard) (ops : List GuardOp)
    (h : GuardInv g) :
    GuardInv (execOps g ops)
      ∧ (execOps g ops).sent = g.sent + admittedBytes g ops
      ∧ (execOps g ops).received ≤ g.received + receivedTotal ops := by
  induction ops generalizing g with
  | nil => simpa [execOps, admittedBytes, receivedTotal] using h
  | cons op rest ih =>
      cases op with
      | receive n =>
          have h1 := guardInv_onReceive g n h
          obtain ⟨a, b, c⟩ := ih (g.onReceive n) h1
          refine ⟨a, ?_, ?_⟩
          · simpa [execOps, admittedBytes,
              AntiAmplificationGuard.onReceive] using b
          · simp only [execOps, receivedTotal]
            have : (g.onReceive n).received ≤ g.received + n := by
              unfold AntiAmplificationGuard.onReceive satAdd
              simp only
              omega
            omega
      | consume n =>
          have hall := guardInv_tryConsume g n h
          obtain ⟨a, b, c⟩ := ih (g.tryConsume n).1 hall.1
          refine ⟨a, ?_, ?_⟩
          · simp only [execOps, admittedBytes]
            cases hres : (g.tryConsume n).2 with
            | false =>
                have heq := hall.2.2 hres
                rw [b, heq]
                simp
            | true =>
                have hsent := hall.2.1 hres
                rw [b, hsent]
                simp
                omega
          · simp only [execOps, receivedTotal]
            have := tryConsume_received_eq g n
            omega

/-- C8 (amended): for every sequence of `on_receive`/`try_consume` calls on
an unverified guard, the cumulative bytes admitted by successful
`try_consume` calls never exceed `factor · cumulative received bytes +
initial_allowance`; a failing `try_consume` leaves the guard (in
particular `sent`) unchanged; and provided the saturating budget
arithmetic does not hit `usize::MAX` (i.e. `factor · received +
initial_allowance < 2^64`), `try_consume(n)` returns false exactly when
admitting `n` would exceed that budget.  (Without the no-saturation
proviso, the "exactly when" fails: see
`tryConsume_iff_counterexample`.) -/
theorem anti_amplification_budget (config : AmplificationConfig)
    (ops : List GuardOp) :
    (admittedBytes (AntiAmplificationGuard.new config) ops
        ≤ config.factor * receivedTotal ops + config.initialAllowance)
    ∧ (∀ n, ((execOps (AntiAmplificationGuard.new config) ops).tryConsume n).2
          = false →
        ((execOps (AntiAmplificationGuard.new config) ops).tryConsume n).1
          = execOps (AntiAmplificationGuard.new config) ops)
    ∧ (config.factor
          * (execOps (AntiAmplificationGuard.new config) ops).received
          + config.initialAllowance < 2 ^ 64 →
        ∀ n, (((execOps (AntiAmplificationGuard.new config) ops).tryConsume
            n).2 = false
          ↔ (execOps (AntiAmplificationGuard.new config) ops).sent + n
              > config.factor
                * (execOps (AntiAmplificationGuard.new config) ops).received
                + config.initialAllowance)) := by
  obtain ⟨hinv, hsent, hrecv⟩ :=
    guardInv_exec (AntiAmplificationGuard.new config) ops
      (guardInv_new config)
  set g := execOps (AntiAmplificationGuard.new config) ops with hg
  obtain ⟨hv, hs, hr, hm⟩ := hinv
  have hcfg : g.config = config := by
    rw [hg, execOps_config_eq]
    rfl
  constructor
  · have h1 : admittedBytes (AntiAmplificationGuard.new config) ops
        = g.sent := by
      rw [hg] at hsent ⊢
      simpa [AntiAmplificationGuard.new] using hsent.symm
    have h2 : g.sent ≤ g.received * g.config.factor
        + g.config.initialAllowance :=
      le_trans hs (budgetBound_le g)
    have h3 : g.received ≤ receivedTotal ops := by
      rw [hg] at hrecv
      simpa [AntiAmplificationGuard.new] using hrecv
    rw [h1, hcfg] at *
    calc g.sent ≤ g.received * config.factor + config.initialAllowance := h2
      _ ≤ receivedTotal ops * config.factor + config.initialAllowance := by
          have := Nat.mul_le_mul_right config.factor h3
          omega
      _ = config.factor * receivedTotal ops + config.initialAllowance := by
          ring
  constructor
  · intro n hfalse
    exact (guardInv_tryConsume g n ⟨hv, hs, hr, hm⟩).2.2 hfalse
  · intro hnosat n
    unfold AntiAmplificationGuard.tryConsume
      AntiAmplificationGuard.availableBudget
    rw [hv]
    simp only [Bool.false_eq_true, if_false]
    have hb : satAdd (satMul g.received g.config.factor)
        g.config.initialAllowance
        = g.received * g.config.factor + g.config.initialAllowance := by
      unfold satAdd satMul USIZE_MAX
      rw [hcfg]
      rw [hcfg] at *
      have : g.received * config.factor
          ≤ config.factor * g.received := by ring_nf; omega
      have h2 : g.received * config.factor + config.initialAllowance
          < 2 ^ 64 := by
        have : g.received * config.factor = config.factor * g.received := by
          ring
        omega
      omega
    have hsb : g.sent ≤ g.received * g.config.factor
        + g.config.initialAllowance :=
      le_trans hs (budgetBound_le g)
    rw [hcfg] at hb hsb
    by_cases hle : n ≤ satAdd (satMul g.received g.config.factor)
        g.config.initialAllowance - g.sent
    · rw [if_pos hle]
      rw [hcfg] at hle
      rw [hb] at hle
      simp only [Bool.true_eq_false, false_iff]
      have : g.received * config.factor + config.initialAllowance
          = config.factor * g.received + config.initialAllowance := by ring
      omega
    · rw [if_neg hle]
      rw [hcfg] at hle
      rw [hb] at hle
      simp only [true_iff]
      have : g.received * config.factor + config.initialAllowance
          = config.factor * g.received + config.initialAllowance := by ring
      omega

/-- Witness for C8 (amended), at the spec's Scenario F prefix: after
receiving 2000 bytes and consuming 1200, `try_consume(8000)` fails
(8400 < 9200) and leaves the guard unchanged. -/
theorem anti_amplification_budget_witness :
    ((execOps (AntiAmplificationGuard.new AmplificationConfig.default)
        [.receive 2000, .consume 1200]).tryConsume 8000).2 = false
      ↔ (execOps (AntiAmplificationGuard.new AmplificationConfig.default)
          [.receive 2000, .consume 1200]).sent + 8000
        > AmplificationConfig.default.factor
            * (execOps (AntiAmplificationGuard.new
                AmplificationConfig.default)
              [.receive 2000, .consume 1200]).received
          + AmplificationConfig.default.initialAllowance :=
  (anti_amplification_budget AmplificationConfig.default
    [.receive 2000, .consume 1200]).2.2 (by decide) 8000

/-- Counterexample to C8 as stated: after receiving 2^63 bytes the
saturating budget is `usize::MAX`; consuming `usize::MAX` then makes the
budget 0, so `try_consume(1)` returns false even though the cumulative
sent plus 1 does not exceed `3 · received + 3600`. -/
theorem tryConsume_iff_counterexample :
    ((execOps (AntiAmplificationGuard.new AmplificationConfig.default)
        [.receive (2 ^ 63), .consume (2 ^ 64 - 1)]).tryConsume 1).2 = false
    ∧ (execOps (AntiAmplificationGuard.new AmplificationConfig.default)
          [.receive (2 ^ 63), .consume (2 ^ 64 - 1)]).sent + 1
        ≤ 3 * (execOps (AntiAmplificationGuard.new
              AmplificationConfig.default)
            [.receive (2 ^ 63), .consume (2 ^ 64 - 1)]).received + 3600 := by
  constructor
  · decide
  · decide

/-! ## Streams and flow control (src/src/transport/stream.rs, flow.rs)

`HashMap`/`BTreeMap` become association lists; `u64` fields are `Nat` with
saturating add where the source saturates. -/

/-- Replace the first binding of `key` (or append one) in an association
list — the `HashMap` insert. -/
def setAssoc {κ α : Type} [DecidableEq κ] :
    List (κ × α) → κ → α → List (κ × α)
  | [], key, v => [(key, v)]
  | (k, w) :: rest, key, v =>
      if k = key then (key, v) :: rest else (k, w) :: setAssoc rest key v

/-- Remove the first binding of `key` — the `HashMap` remove. -/
def removeAssoc {κ α : Type} [DecidableEq κ] :
    List (κ × α) → κ → List (κ × α)
  | [], _ => []
  | (k, w) :: rest, key =>
      if k = key then rest else (k, w) :: removeAssoc rest key

theorem lookup_setAssoc {κ α : Type} [DecidableEq κ] [BEq κ] [LawfulBEq κ]
    (l : List (κ × α)) (key : κ) (v : α) :
    (setAssoc l key v).lookup key = some v := by
  induction l with
  | nil => simp [setAssoc]
  | cons p rest ih =>
      obtain ⟨k, w⟩ := p
      by_cases hk : k = key
      · simp [setAssoc, hk]
      · have hbe : (key == k) = false :=
          beq_eq_false_iff_ne.mpr (fun hcon => hk hcon.symm)
        simp [setAssoc, hk, List.lookup, hbe, ih]

theorem lookup_setAssoc_ne {κ α : Type} [DecidableEq κ] [BEq κ]
    [LawfulBEq κ] (l : List (κ × α)) (key k' : κ) (v : α) (h : k' ≠ key) :
    (setAssoc l key v).lookup k' = l.lookup k' := by
  have hbe : (k' == key) = false := beq_eq_false_iff_ne.mpr h
  induction l with
  | nil => simp [setAssoc, List.lookup, hbe]
  | cons p rest ih =>
      obtain ⟨k, w⟩ := p
      by_cases hk : k = key
      · subst hk
        simp [setAssoc, List.lookup, hbe]
      · cases hbe2 : k' == k <;>
          simp [setAssoc, hk, List.lookup, hbe2, ih]

/-- The `FlowControlError` (src/src/transport/flow.rs:9). -/
inductive FlowControlError where
  | sendWindowExceeded (available attempted : Nat)
  deriving DecidableEq, Repr

/-- The `FlowWindow` (src/src/transport/flow.rs:22). -/
structure FlowWindow where
  maxData : Nat
  consumed : Nat
  deriving DecidableEq, Repr

/-- The `FlowWindow::new`. -/
def FlowWindow.new (maxData : Nat) : FlowWindow :=
  { maxData := maxData, consumed := 0 }

/-- The `FlowWindow::available`: `max_data.saturating_sub(consumed)`. -/
def FlowWindow.available (w : FlowWindow) : Nat := w.maxData - w.consumed

/-- The `FlowController` (src/src/transport/flow.rs:78). -/
structure FlowController where
  connection : FlowWindow
  streams : List (Nat × FlowWindow)
  deriving DecidableEq, Repr

/-- The `FlowController::connection_available`. -/
def FlowController.connectionAvailable (f : FlowController) : Nat :=
  f.connection.available

/-- The `FlowController::stream_available` (src/src/transport/flow.rs:143):
the stream window's availability, or the connection's when the stream has
no window yet. -/
def FlowController.streamAvailable (f : FlowController) (id : Nat) : Nat :=
  match f.streams.lookup id with
  | some w => w.available
  | none => f.connection.available

/-- The `FlowController::consume` (src/src/transport/flow.rs:111): check the
connection window, then the stream window (creating it with the connection
limit if absent, as `stream_window_mut` does), then debit both.  The inner
`FlowWindow::consume` calls cannot fail after the checks
(`.expect("bounds checked")`), so they become direct saturating updates. -/
def FlowController.consume (f : FlowController) (id : Nat) (amount : Nat) :
    FlowController × Except FlowControlError Unit :=
  let connAvailable := f.connection.available
  if amount > connAvailable then
    (f, .error (.sendWindowExceeded connAvailable amount))
  else
    let w := (f.streams.lookup id).getD (FlowWindow.new f.connection.maxData)
    let f1 : FlowController := { f with streams := setAssoc f.streams id w }
    let streamAvailable := w.available
    if amount > streamAvailable then
      (f1, .error (.sendWindowExceeded streamAvailable amount))
    else
      ({ connection := { f.connection with
            consumed := satAdd f.connection.consumed amount }
         streams := setAssoc f1.streams id
           { w with consumed := satAdd w.consumed amount } },
       .ok ())

/-- The consumed counter of a stream window (0 when absent): the
observable the C10 claim talks about. -/
def FlowController.streamConsumed (f : FlowController) (id : Nat) : Nat :=
  match f.streams.lookup id with
  | some w => w.consumed
  | none => 0

/-- The `StreamError` (src/src/transport/stream.rs:109). -/
inductive StreamError where
  | alreadyFinished
  | dataBeyondFinalOffset
  | conflictingData (offset : Nat)
  | unknownStream
  deriving DecidableEq, Repr

/-- The `SendChunk` (src/src/transport/stream.rs:129). -/
structure SendChunk where
  offset : Nat
  payload : List Nat
  fin : Bool
  deriving DecidableEq, Repr

/-- The `SendBuffer` (src/src/transport/stream.rs:139). -/
structure SendBuffer where
  buffer : List Nat
  finQueued : Bool
  finSent : Bool
  nextOffset : Nat
  deriving DecidableEq, Repr

/-- The `SendBuffer::next_chunk` (src/src/transport/stream.rs:164). -/
def SendBuffer.nextChunk (s : SendBuffer) (maxLen : Nat) :
    SendBuffer × Option SendChunk :=
  if (s.finSent || !s.finQueued) && s.buffer.isEmpty then (s, none)
  else
    let take := min s.buffer.length maxLen
    let payload := s.buffer.take take
    let rest := s.buffer.drop take
    let fin := rest.isEmpty && s.finQueued && !s.finSent
    ({ buffer := rest
       finQueued := s.finQueued
       finSent := if fin then true else s.finSent
       nextOffset := satAdd s.nextOffset payload.length },
     some { offset := s.nextOffset, payload := payload, fin := fin })

/-- The `RecvBuffer` (src/src/transport/stream.rs:197).  The `BTreeMap` of
pending chunks becomes an association list kept sorted ascending by
offset, so its head is `first_key_value`. -/
structure RecvBuffer where
  deliveredOffset : Nat
  ready : List Nat
  pending : List (Nat × List Nat)
  finalOffset : Option Nat
  deriving DecidableEq, Repr

/-- Insert (or replace) a pending chunk, keeping offsets sorted. -/
def insertPending : List (Nat × List Nat) → Nat → List Nat →
    List (Nat × List Nat)
  | [], off, data => [(off, data)]
  | (k, v) :: rest, off, data =>
      if off < k then (off, data) :: (k, v) :: rest
      else if off = k then (off, data) :: rest
      else (k, v) :: insertPending rest off data

/-- The `RecvBuffer::promote_pending` (src/src/transport/stream.rs:233): move
pending chunks that start exactly at `delivered_offset + |ready|` into the
contiguous ready buffer, repeatedly, looking only at the smallest pending
offset. -/
def promotePending (delivered : Nat) :
    List Nat → List (Nat × List Nat) → List Nat × List (Nat × List Nat)
  | ready, [] => (ready, [])
  | ready, (off, chunk) :: rest =>
      if off = delivered + ready.length then
        promotePending delivered (ready ++ chunk) rest
      else (ready, (off, chunk) :: rest)

/-- The `RecvBuffer::ingest` (src/src/transport/stream.rs:205). -/
def RecvBuffer.ingest (r : RecvBuffer) (offset : Nat) (data : List Nat)
    (fin : Bool) : RecvBuffer × Except StreamError Unit :=
  let beyond : Bool :=
    match r.finalOffset with
    | some fo => decide (satAdd offset data.length > fo)
    | none => false
  if beyond then (r, .error .dataBeyondFinalOffset)
  else if data.isEmpty && !fin then (r, .ok ())
  else
    let cur := (r.pending.lookup offset).getD []
    if cur.isEmpty ∨ cur = data then
      let pending1 :=
        if cur.isEmpty then insertPending r.pending offset data
        else r.pending
      let finalOffset1 :=
        if fin then
          some (match r.finalOffset with
            | some prev => max prev (satAdd offset data.length)
            | none => satAdd offset data.length)
        else r.finalOffset
      let (ready1, pending2) :=
        promotePending r.deliveredOffset r.ready pending1
      ({ deliveredOffset := r.deliveredOffset
         ready := ready1
         pending := pending2
         finalOffset := finalOffset1 }, .ok ())
    else (r, .error (.conflictingData offset))

/-- The `RecvBuffer::read` (src/src/transport/stream.rs:247). -/
def RecvBuffer.read (r : RecvBuffer) (maxLen : Nat) :
    RecvBuffer × List Nat :=
  let take := min r.ready.length maxLen
  let out := r.ready.take take
  ({ r with ready := r.ready.drop take
            deliveredOffset := satAdd r.deliveredOffset out.length }, out)

/-- The `Stream` (src/src/transport/stream.rs:267); the id lives in the
manager's association list. -/
structure Stream where
  send : SendBuffer
  recv : RecvBuffer
  deriving DecidableEq, Repr

/-- The `StreamManager` (src/src/transport/stream.rs:327); streams are keyed
by the raw `StreamId` value. -/
structure StreamManager where
  streams : List (Nat × Stream)
  flow : FlowController
  deriving DecidableEq, Repr

/-- The `StreamManager::poll_send_chunk` (src/src/transport/stream.rs:387):
compute the effective limit from stream allowance, connection allowance
and `max_len`; pull a chunk; debit both flow windows only when the chunk
payload is non-empty. -/
def StreamManager.pollSendChunk (m : StreamManager) (id : Nat)
    (maxLen : Nat) :
    StreamManager × Except FlowControlError (Option SendChunk) :=
  let allowance := m.flow.streamAvailable id
  if allowance = 0 then (m, .ok none)
  else
    let limit := min (min allowance m.flow.connectionAvailable) maxLen
    if limit = 0 then (m, .ok none)
    else
      match m.streams.lookup id with
      | none => (m, .ok none)
      | some stream =>
        let (send1, chunk) := stream.send.nextChunk limit
        let m1 : StreamManager :=
          { m with streams :=
              setAssoc m.streams id ({ stream with send := send1 }) }
        match chunk with
        | none => (m1, .ok none)
        | some c =>
          if c.payload.isEmpty then (m1, .ok (some c))
          else
            match m1.flow.consume id c.payload.length with
            | (flow1, .ok ()) => ({ m1 with flow := flow1 }, .ok (some c))
            | (flow1, .error e) => ({ m1 with flow := flow1 }, .error e)

theorem consume_ok_spec (f : FlowController) (id amount : Nat)
    (f1 : FlowController) (h : f.consume id amount = (f1, .ok ())) :
    f1.connection.consumed = satAdd f.connection.consumed amount
    ∧ f1.streamConsumed id = satAdd (f.streamConsumed id) amount := by
  unfold FlowController.consume at h
  by_cases h1 : amount > f.connection.available
  · rw [if_pos h1] at h
    simp at h
  · rw [if_neg h1] at h
    simp only at h
    by_cases h2 : amount
        > ((f.streams.lookup id).getD
          (FlowWindow.new f.connection.maxData)).available
    · rw [if_pos h2] at h
      simp at h
    · rw [if_neg h2] at h
      simp only [Prod.mk.injEq] at h
      obtain ⟨hf1, _⟩ := h
      subst hf1
      constructor
      · rfl
      · unfold FlowController.streamConsumed
        rw [lookup_setAssoc]
        simp only
        cases hl : f.streams.lookup id with
        | none => simp [hl, FlowWindow.new]
        | some w => simp [hl]

/-- C10: `StreamManager::poll_send_chunk` debits the connection and stream
flow windows only when the returned chunk has a non-empty payload; a
FIN-only chunk (empty payload, fin set) and every call returning
`Ok(None)` leave the flow controller — in particular both consumed
counters — unchanged; a non-empty chunk debits both counters by the
payload length. -/
theorem pollSendChunk_flow (m : StreamManager) (id maxLen : Nat)
    (m2 : StreamManager) (r : Except FlowControlError (Option SendChunk))
    (h : m.pollSendChunk id maxLen = (m2, r)) :
    (r = .ok none → m2.flow = m.flow)
    ∧ (∀ c, r = .ok (some c) → c.payload = [] → m2.flow = m.flow)
    ∧ (∀ c, r = .ok (some c) → c.payload ≠ [] →
        m2.flow.connection.consumed
            = satAdd m.flow.connection.consumed c.payload.length
          ∧ m2.flow.streamConsumed id
            = satAdd (m.flow.streamConsumed id) c.payload.length) := by
  unfold StreamManager.pollSendChunk at h
  by_cases h1 : m.flow.streamAvailable id = 0
  · rw [if_pos h1] at h
    simp only [Prod.mk.injEq] at h
    obtain ⟨hm, hr⟩ := h
    subst hm
    subst hr
    exact ⟨fun _ => rfl, fun c hc => by simp at hc, fun c hc => by simp at hc⟩
  · rw [if_neg h1] at h
    simp only at h
    by_cases h2 : min (min (m.flow.streamAvailable id)
        m.flow.connectionAvailable) maxLen = 0
    · rw [if_pos h2] at h
      simp only [Prod.mk.injEq] at h
      obtain ⟨hm, hr⟩ := h
      subst hm
      subst hr
      exact ⟨fun _ => rfl, fun c hc => by simp at hc,
        fun c hc => by simp at hc⟩
    · rw [if_neg h2] at h
      cases hlk : m.streams.lookup id with
      | none =>
          rw [hlk] at h
          simp only [Prod.mk.injEq] at h
          obtain ⟨hm, hr⟩ := h
          subst hm
          subst hr
          exact ⟨fun _ => rfl, fun c hc => by simp at hc,
            fun c hc => by simp at hc⟩
      | some stream =>
          rw [hlk] at h
          simp only at h
          cases hnc : stream.send.nextChunk (min (min
              (m.flow.streamAvailable id) m.flow.connectionAvailable)
              maxLen) with
          | mk send1 chunk =>
            rw [hnc] at h
            simp only at h
            cases chunk with
            | none =>
                simp only [Prod.mk.injEq] at h
                obtain ⟨hm, hr⟩ := h
                subst hm
                subst hr
                exact ⟨fun _ => rfl, fun c hc => by simp at hc,
                  fun c hc => by simp at hc⟩
            | some c0 =>
                simp only at h
                by_cases hemp : c0.payload.isEmpty
                · rw [if_pos hemp] at h
                  simp only [Prod.mk.injEq] at h
                  obtain ⟨hm, hr⟩ := h
                  subst hm
                  subst hr
                  refine ⟨fun hcon => by simp at hcon, fun c hc hcp => rfl,
                    fun c hc hcp => ?_⟩
                  simp only [Except.ok.injEq, Option.some.injEq] at hc
                  subst hc
                  rw [List.isEmpty_iff] at hemp
                  exact absurd hemp hcp
                · rw [if_neg hemp] at h
                  cases hcons : m.flow.consume id c0.payload.length with
                  | mk flow1 res =>
                    rw [hcons] at h
                    cases res with
                    | error e =>
                        simp only [Prod.mk.injEq] at h
                        obtain ⟨hm, hr⟩ := h
                        subst hm
                        subst hr
                        exact ⟨fun hcon => by simp at hcon,
                          fun c hc => by simp at hc,
                          fun c hc => by simp at hc⟩
                    | ok u =>
                        cases u
                        simp only [Prod.mk.injEq] at h
                        obtain ⟨hm, hr⟩ := h
                        subst hm
                        subst hr
                        refine ⟨fun hcon => by simp at hcon,
                          fun c hc hcp => ?_, fun c hc hcp => ?_⟩
                        · simp only [Except.ok.injEq,
                            Option.some.injEq] at hc
                          subst hc
                          rw [← List.isEmpty_iff] at hcp
                          exact absurd hcp hemp
                        · simp only [Except.ok.injEq,
                            Option.some.injEq] at hc
                          subst hc
                          exact consume_ok_spec m.flow id
                            c0.payload.length flow1 hcons
/-- The C10 witness stream state: empty send buffer with a queued FIN. -/
def c10Send : SendBuffer :=
  { buffer := [], finQueued := true, finSent := false, nextOffset := 0 }

/-- An empty receive buffer. -/
def emptyRecv : RecvBuffer :=
  { deliveredOffset := 0, ready := [], pending := [], finalOffset := none }

/-- A concrete manager for the C10 witness: stream 4 has an empty send
buffer with a queued FIN; both windows have limit 10, nothing consumed. -/
def c10Manager : StreamManager :=
  { streams := [(4, { send := c10Send, recv := emptyRecv })]
    flow := { connection := { maxData := 10, consumed := 0 }
              streams := [(4, { maxData := 10, consumed := 0 })] } }

/-- The state after polling the FIN-only chunk from `c10Manager`. -/
def c10ManagerAfter : StreamManager :=
  { streams := [(4, { send := { c10Send with finSent := true }
                      recv := emptyRecv })]
    flow := { connection := { maxData := 10, consumed := 0 }
              streams := [(4, { maxData := 10, consumed := 0 })] } }

/-- Witness for C10: polling a FIN-only chunk leaves the flow controller
unchanged. -/
theorem pollSendChunk_flow_witness :
    c10ManagerAfter.flow = c10Manager.flow :=
  (pollSendChunk_flow c10Manager 4 16 c10ManagerAfter
    (.ok (some { offset := 0, payload := [], fin := true }))
    (by decide)).2.1 { offset := 0, payload := [], fin := true } rfl rfl

/-! ## C4: re-ingesting delivered data wedges the receive buffer -/

/-- Fresh receive buffer. -/
def c4Recv0 : RecvBuffer :=
  { deliveredOffset := 0, ready := [], pending := [], finalOffset := none }

/-- After ingesting bytes "ab" at offset 0. -/
def c4Recv1 : RecvBuffer := (c4Recv0.ingest 0 [97, 98] false).1

/-- After the reader consumed "ab". -/
def c4Recv2 : RecvBuffer := (c4Recv1.read 2).1

/-- After re-ingesting the identical, already-delivered chunk. -/
def c4Recv3 : RecvBuffer := (c4Recv2.ingest 0 [97, 98] false).1

/-- After ingesting the genuinely new bytes "cd" at offset 2. -/
def c4Recv4 : RecvBuffer := (c4Recv3.ingest 2 [99, 100] false).1

/-- C4 (code bug): re-ingesting a chunk identical to one already delivered
is NOT a no-op — it re-enters `pending` at a stale offset below the
delivery point, and `promote_pending` (which only inspects the smallest
pending offset) then never promotes anything again: the subsequent bytes
"cd" at offset 2 are accepted but never delivered by `read`, permanently
stuck in `pending`.  The claim's quantified delivery property fails on
this input. -/
theorem recv_duplicate_of_delivered_wedges :
    (c4Recv1.read 2).2 = [97, 98]
    ∧ (c4Recv2.ingest 0 [97, 98] false).2 = .ok ()
    ∧ (c4Recv3.ingest 2 [99, 100] false).2 = .ok ()
    ∧ (c4Recv4.read 10).2 = []
    ∧ c4Recv4.pending = [(0, [97, 98]), (2, [99, 100])] := by decide

/-! ## C3: the transport `decrypt` performs no authentication -/

/-- Key for the C3 failing input. -/
def c3Key : List Nat := List.replicate 32 0x11

/-- Nonce for the C3 failing input. -/
def c3Nonce : List Nat := nonceFromPacketNumber 0

/-- Ciphertext of plaintext [1, 2, 3] under `encrypt`. -/
def c3Cipher : List Nat := (encrypt c3Key c3Nonce [1, 2, 3] []).1

/-- The matching authentication tag produced by `encrypt`. -/
def c3Tag : List Nat := (encrypt c3Key c3Nonce [1, 2, 3] []).2

/-- The ciphertext with its first byte flipped. -/
def c3Tampered : List Nat := (c3Cipher.headD 0 ^^^ 255) :: c3Cipher.tail

/-- C3 (code bug): `decrypt` (src/src/transport/crypto.rs:385), the AEAD
open operation wired into the packet path, ignores both the AAD and the
tag: opening a tampered ciphertext with the original tag returns
`Ok` with a garbled plaintext instead of failing with
`AuthenticationFailed`.  (The unused RFC 8439 implementation in
src/src/transport/crypto/aead.rs, and its test, reject exactly this
tampering.) -/
theorem decrypt_never_authenticates :
    decrypt c3Key c3Nonce c3Tampered [] c3Tag = .ok [254, 2, 3]
    ∧ [254, 2, 3] ≠ [1, 2, 3] := by decide

/-! ## Session tickets (src/src/transport/session.rs)

`SystemTime` becomes an abstract `Nat` timestamp supplied by the caller
(`now`); `Duration` TTLs are `Nat` in the same unit.  The `HashMap` of
tickets becomes an association list keyed by the 16-byte id. -/

/-- The `u8::rotate_left` for `b < 256` (the rotation count is taken mod 8,
so a count of 8 is the identity, as in Rust). -/
def rotl8 (b k : Nat) : Nat :=
  (b * 2 ^ (k % 8)) % 256 + b / 2 ^ (8 - k % 8)

/-- The `SessionTicket` (src/src/transport/session.rs:13). -/
structure SessionTicket where
  id : List Nat
  secret : List Nat
  issuedAt : Nat
  expiresAt : Nat
  deriving DecidableEq, Repr

/-- The `SessionTicket::is_valid`: `expires_at > now`. -/
def SessionTicket.isValid (t : SessionTicket) (now : Nat) : Bool :=
  decide (now < t.expiresAt)

/-- The `SessionTicketManager` (src/src/transport/session.rs:67). -/
structure SessionTicketManager where
  ttl : Nat
  maxEntries : Nat
  counter : Nat
  tickets : List (List Nat × SessionTicket)
  order : List (List Nat)
  deriving DecidableEq, Repr

/-- The `derive_material` (src/src/transport/session.rs:123), parameterised on
the manager's counter: 16 id bytes
`seed[idx % len] ^ rotl(counter_bytes[idx % 8], idx % 8)` and 32 secret
bytes `rotl((seed[idx % len] + id[idx % 16]) % 256, (idx & 7) + 1)`. -/
def deriveMaterial (counter : Nat) (seed : List Nat) :
    List Nat × List Nat :=
  let counterBytes := toLE 8 counter
  let id := (List.range 16).map (fun idx =>
    seed.getD (idx % seed.length) 0
      ^^^ rotl8 (counterBytes.getD (idx % 8) 0) (idx % 8))
  let secret := (List.range 32).map (fun idx =>
    rotl8 ((seed.getD (idx % seed.length) 0 + id.getD (idx % 16) 0) % 256)
      (idx % 8 + 1))
  (id, secret)

@[simp] theorem deriveMaterial_id_length (counter : Nat) (seed : List Nat) :
    (deriveMaterial counter seed).1.length = 16 := by
  simp [deriveMaterial]

/-- The eviction-then-remove loop of `prune_expired`
(src/src/transport/session.rs:156): pop order entries from the front
whose ticket is missing or expired; stop at the first valid one. -/
def pruneLoop (now : Nat) (tickets : List (List Nat × SessionTicket)) :
    List (List Nat) →
      List (List Nat × SessionTicket) × List (List Nat)
  | [] => (tickets, [])
  | id :: rest =>
    match tickets.lookup id with
    | some t =>
        if t.isValid now then (tickets, id :: rest)
        else pruneLoop now (removeAssoc tickets id) rest
    | none => pruneLoop now (removeAssoc tickets id) rest

/-- The `store` (src/src/transport/session.rs:145): evict the oldest entry
when at capacity, then insert and append to the order queue. -/
def SessionTicketManager.store (m : SessionTicketManager)
    (t : SessionTicket) : SessionTicketManager :=
  let evicted :=
    if m.order.length ≥ m.maxEntries then
      match m.order with
      | oldest :: rest => (removeAssoc m.tickets oldest, rest)
      | [] => (m.tickets, [])
    else (m.tickets, m.order)
  { m with tickets := setAssoc evicted.1 t.id t
           order := evicted.2 ++ [t.id] }

/-- The `issue` (src/src/transport/session.rs:89): prune, bump the counter
(wrapping u64), derive material from the NEW counter, store. -/
def SessionTicketManager.issue (m : SessionTicketManager) (now : Nat)
    (seed : List Nat) : SessionTicketManager × SessionTicket :=
  let pruned := pruneLoop now m.tickets m.order
  let counter1 := (m.counter + 1) % 2 ^ 64
  let material := deriveMaterial counter1 seed
  let t : SessionTicket :=
    { id := material.1, secret := material.2,
      issuedAt := now, expiresAt := now + m.ttl }
  (SessionTicketManager.store
    { m with tickets := pruned.1, order := pruned.2, counter := counter1 }
    t, t)

/-- The `resume` (src/src/transport/session.rs:102): check the id length,
prune, look the id up; on a valid entry, derive the expected secret from
the seed and the manager's CURRENT counter and compare. -/
def SessionTicketManager.resume (m : SessionTicketManager) (now : Nat)
    (id seed : List Nat) :
    SessionTicketManager × Option SessionTicket :=
  if id.length ≠ 16 then (m, none)
  else
    let pruned := pruneLoop now m.tickets m.order
    let m1 := { m with tickets := pruned.1, order := pruned.2 }
    match pruned.1.lookup id with
    | some t =>
        if t.isValid now then
          if t.secret = (deriveMaterial m.counter seed).2 then (m1, some t)
          else (m1, none)
        else (m1, none)
    | none => (m1, none)

theorem lookup_removeAssoc_ne {κ α : Type} [DecidableEq κ] [BEq κ]
    [LawfulBEq κ] (l : List (κ × α)) (key k' : κ) (h : k' ≠ key) :
    (removeAssoc l key).lookup k' = l.lookup k' := by
  induction l with
  | nil => simp [removeAssoc]
  | cons p rest ih =>
      obtain ⟨k, w⟩ := p
      by_cases hk : k = key
      · subst hk
        have hbe : (k' == k) = false := beq_eq_false_iff_ne.mpr h
        simp [removeAssoc, List.lookup, hbe]
      · cases hbe2 : k' == k <;>
          simp [removeAssoc, hk, List.lookup, hbe2, ih]

/-- Pruning never removes an id whose stored ticket is valid. -/
theorem pruneLoop_preserves (now : Nat)
    (tickets : List (List Nat × SessionTicket)) (order : List (List Nat))
    (id : List Nat) (t : SessionTicket)
    (hl : tickets.lookup id = some t) (hv : t.isValid now = true) :
    (pruneLoop now tickets order).1.lookup id = some t := by
  induction order generalizing tickets with
  | nil => simpa [pruneLoop] using hl
  | cons id2 rest ih =>
      unfold pruneLoop
      cases hl2 : tickets.lookup id2 with
      | some t2 =>
          simp only
          by_cases hval : t2.isValid now
          · rw [if_pos hval]
            exact hl
          · rw [if_neg hval]
            have hne : id ≠ id2 := by
              intro hcon
              subst hcon
              rw [hl] at hl2
              cases hl2
              exact hval hv
            exact ih _ ((lookup_removeAssoc_ne tickets id2 id hne).trans hl)
      | none =>
          simp only
          have hne : id ≠ id2 := by
            intro hcon
            subst hcon
            rw [hl] at hl2
            cases hl2
          exact ih _ ((lookup_removeAssoc_ne tickets id2 id hne).trans hl)

theorem store_lookup (m : SessionTicketManager) (t : SessionTicket) :
    (m.store t).tickets.lookup t.id = some t := by
  unfold SessionTicketManager.store
  simp only
  exact lookup_setAssoc _ _ _

/-- C5 (amended): a ticket just issued resumes successfully with its id
and the issuing seed (the manager's counter is unchanged since the
derivation); and in general `resume(id, seed)` returns a ticket IF AND
ONLY IF the id has length 16, the id is present after pruning, the
ticket is unexpired, and the seed together with the manager's CURRENT
counter derives the stored secret (second and third conjuncts: the two
directions of the iff).  No per-ticket counter is stored, so issuing any
further ticket changes the counter and makes earlier tickets
unresumable (`session_resume_claim_counterexample`). -/
theorem session_resume_semantics (m : SessionTicketManager) (now : Nat)
    (seed : List Nat) (httl : 0 < m.ttl) :
    ((m.issue now seed).1.resume now (m.issue now seed).2.id seed).2
      = some (m.issue now seed).2
    ∧ (∀ id s2 m2 t, m.resume now id s2 = (m2, some t) →
        id.length = 16
          ∧ (pruneLoop now m.tickets m.order).1.lookup id = some t
          ∧ t.isValid now = true
          ∧ t.secret = (deriveMaterial m.counter s2).2)
    ∧ (∀ id s2 t, id.length = 16 →
        (pruneLoop now m.tickets m.order).1.lookup id = some t →
        t.isValid now = true →
        t.secret = (deriveMaterial m.counter s2).2 →
        (m.resume now id s2).2 = some t) := by
  refine ⟨?_, ?_, ?_⟩
  · have hlen : (m.issue now seed).2.id.length = 16 :=
      deriveMaterial_id_length _ _
    have hvalid : (m.issue now seed).2.isValid now = true := by
      show decide (now < now + m.ttl) = true
      simp
      omega
    have hlook : (m.issue now seed).1.tickets.lookup
        (m.issue now seed).2.id = some (m.issue now seed).2 :=
      store_lookup _ _
    have hplookup : (pruneLoop now (m.issue now seed).1.tickets
          (m.issue now seed).1.order).1.lookup (m.issue now seed).2.id
        = some (m.issue now seed).2 :=
      pruneLoop_preserves now _ _ _ _ hlook hvalid
    unfold SessionTicketManager.resume
    rw [if_neg (by rw [hlen]; simp)]
    simp only
    rw [hplookup]
    simp only
    rw [if_pos hvalid]
    have hsec : (m.issue now seed).2.secret
        = (deriveMaterial (m.issue now seed).1.counter seed).2 := rfl
    rw [if_pos hsec]
  · intro id s2 m2 t h
    unfold SessionTicketManager.resume at h
    by_cases hlen : id.length ≠ 16
    · rw [if_pos hlen] at h
      simp at h
    · rw [if_neg hlen] at h
      simp only at h
      cases hlk : (pruneLoop now m.tickets m.order).1.lookup id with
      | none =>
          rw [hlk] at h
          simp at h
      | some t0 =>
          rw [hlk] at h
          simp only at h
          by_cases hval : t0.isValid now
          · rw [if_pos hval] at h
            by_cases hsec : t0.secret = (deriveMaterial m.counter s2).2
            · rw [if_pos hsec] at h
              simp only [Prod.mk.injEq, Option.some.injEq] at h
              obtain ⟨_, hts⟩ := h
              subst hts
              exact ⟨by omega, rfl, hval, hsec⟩
            · rw [if_neg hsec] at h
              simp at h
          · rw [if_neg hval] at h
            simp at h
  · intro id s2 t hlen hlk hval hsec
    unfold SessionTicketManager.resume
    rw [if_neg (by rw [hlen]; simp)]
    simp only
    rw [hlk]
    simp only
    rw [if_pos hval, if_pos hsec]

/-- A fresh ticket manager with ttl 100 and capacity 10. -/
def c5Manager0 : SessionTicketManager :=
  { ttl := 100, maxEntries := 10, counter := 0, tickets := [], order := [] }

/-- Witness for C5 (amended): the fresh manager issues a ticket from seed
[1] at time 0 and resumes it immediately. -/
theorem session_resume_semantics_witness :
    ((c5Manager0.issue 0 [1]).1.resume 0
        (c5Manager0.issue 0 [1]).2.id [1]).2
      = some (c5Manager0.issue 0 [1]).2 :=
  (session_resume_semantics c5Manager0 0 [1] (by decide)).1

/-- First issue: seed [1] at time 0. -/
def c5Issue1 : SessionTicketManager × SessionTicket := c5Manager0.issue 0 [1]

/-- Second issue: seed [2] at time 0. -/
def c5Issue2 : SessionTicketManager × SessionTicket :=
  c5Issue1.1.issue 0 [2]

/-- Counterexample to C5 as stated: after ONE further ticket is issued,
the first ticket's id is still present and unexpired and the same seed is
presented, yet `resume` returns `None` — the expected secret is derived
from the manager's CURRENT counter (2), not a counter stored for the
ticket (1), so the comparison fails. -/
theorem session_resume_claim_counterexample :
    c5Issue2.1.tickets.lookup c5Issue1.2.id = some c5Issue1.2
    ∧ c5Issue1.2.isValid 0 = true
    ∧ (c5Issue2.1.resume 0 c5Issue1.2.id [1]).2 = none := by decide

end Mxp
